import Mathlib

/-!
Verification of the SSM patch-compliance data-collection pipeline.

The definitions below are shallow embeddings of the Python sources:
* `fetch_account_region_data` and `fetch_all_data` from `patch_compliance_final.py`
  (per-(account, region) reconciliation and the parallel aggregator);
* `get_ec2_instances` and `get_patch_compliance_data` from
  `final_corrected_patch_compliance_lambda.py` (the Lambda reporter);
* the management summary / detailed noncompliance counting from
  `completely_corrected_patch_compliance_lambda.py`;
* the instance classification rule from `IAM_Users_with_Navigation.py`;
* `unique_patches` (the `drop_duplicates` reduction) from `patch_compliance_final.py`.

AWS API responses are modelled as explicit inputs: paginated listings become
lists of pages, per-identifier lookups become `String → Option _` functions
(`none` = the call failed or returned no record, mirroring the guarding
`try/except` blocks), and counts read out of response dictionaries become
`Option Int` fields (`none` = key absent, read with the code's `.get(key, 0)`
defaults).
-/

namespace PatchCompliance

/-- One EC2 instance as returned by `describe_instances`:
`InstanceId`, `Tags`, optional `Platform`, `State.Name`, optional `LaunchTime`. -/
structure Ec2Instance where
  instanceId : String
  tags : List (String × String)
  platform : Option String
  state : String
  launchTime : Option String
deriving Repr, DecidableEq

/-- One entry of `InstanceInformationList` from `describe_instance_information`:
`InstanceId` and optional `PingStatus`. -/
structure SsmInstanceInformation where
  instanceId : String
  pingStatus : Option String
deriving Repr, DecidableEq

/-- One `ResourceComplianceSummaryItems` entry from
`list_resource_compliance_summaries`: optional `ResourceId` and `Status`. -/
structure ComplianceSummary where
  resourceId : Option String
  status : Option String
deriving Repr, DecidableEq

/-- One `InstancePatchStates` entry from `describe_instance_patch_states`.
Fields are `Option Int`: `none` models an absent dictionary key, read by the
Python code as `state.get(key, 0)`. -/
structure InstancePatchState where
  installedCount : Option Int
  missingCount : Option Int
  failedCount : Option Int
  notApplicableCount : Option Int
  unreportedNotApplicableCount : Option Int
  installedPendingRebootCount : Option Int
  installedOtherCount : Option Int
  installedRejectedCount : Option Int
deriving Repr, DecidableEq

/-- The per-instance bookkeeping value stored in `instance_map` by
`fetch_account_region_data` (`patch_compliance_final.py`, lines 103-110),
including the `processed` flag added at line 149 (read with
`info.get('processed')`, i.e. defaulting to false). -/
structure InstInfo where
  name : String
  platform : String
  state : String
  launch : Option String
  ssmManaged : Bool
  ssmAgentStatus : String
  processed : Bool
deriving Repr, DecidableEq

/-- One row of the `instances` output list of `fetch_account_region_data`.
The four patch-count fields are `Option Int` because the Python dict only
gains those keys in the patch-state step (lines 165-168) or the unmanaged
branch (lines 186-189). -/
structure ComplianceRecord where
  accountName : String
  region : String
  instanceId : String
  instanceName : String
  platform : String
  complianceStatus : String
  ssmAgentStatus : String
  instanceState : String
  launchTime : Option String
  managed : Bool
  installedPatches : Option Int
  missingPatches : Option Int
  failedPatches : Option Int
  unspecifiedPatches : Option Int
deriving Repr, DecidableEq

/-! ### Python-dict semantics for `instance_map`

`instance_map` is a Python dict keyed by instance id.  We model it as an
association list with dict semantics: insertion replaces the value in place
when the key exists (keeping its position) and appends otherwise; membership
tests and lookups scan by key. -/

/-- `iid in instance_map`. -/
def dictContains (m : List (String × InstInfo)) (k : String) : Bool :=
  m.any (fun p => p.1 == k)

/-- `instance_map[iid]`, as an `Option`. -/
def dictLookup (m : List (String × InstInfo)) (k : String) : Option InstInfo :=
  (m.find? (fun p => p.1 == k)).map Prod.snd

/-- `instance_map[iid] = v` (replace in place, else append). -/
def dictInsert (m : List (String × InstInfo)) (k : String) (v : InstInfo) :
    List (String × InstInfo) :=
  if dictContains m k then m.map (fun p => if p.1 == k then (p.1, v) else p)
  else m ++ [(k, v)]

/-- Mutating one field of `instance_map[iid]` when the key is present
(no-op when absent, matching the `if iid in instance_map` guards). -/
def dictModify (m : List (String × InstInfo)) (k : String)
    (f : InstInfo → InstInfo) : List (String × InstInfo) :=
  m.map (fun p => if p.1 == k then (p.1, f p.2) else p)

/-! ### Stage 1: EC2 inventory (`patch_compliance_final.py` lines 94-112)

`for page in paginator.paginate(): for res in page['Reservations']:
for inst in res['Instances']: instance_map[iid] = {...}`. -/

/-- The initial `instance_map` entry built for one instance (lines 103-110):
name from the `Name` tag falling back to the id, platform from
`inst.get('Platform', 'linux')`. -/
def initialInstInfo (inst : Ec2Instance) : InstInfo :=
  { name := (((inst.tags.find? (fun t => t.1 == "Name")).map Prod.snd).getD
      inst.instanceId)
    platform := inst.platform.getD "linux"
    state := inst.state
    launch := inst.launchTime
    ssmManaged := false
    ssmAgentStatus := "Unknown"
    processed := false }

/-- Build `instance_map` from the paginated `describe_instances` response
(pages of reservations of instances). -/
def buildInstanceMap (ec2Pages : List (List (List Ec2Instance))) :
    List (String × InstInfo) :=
  ec2Pages.foldl
    (fun m page => page.foldl
      (fun m res => res.foldl
        (fun m inst => dictInsert m inst.instanceId (initialInstInfo inst)) m) m)
    []

/-! ### Stage 2: SSM registry (`patch_compliance_final.py` lines 114-124) -/

/-- Mark registered instances managed and record their ping status. -/
def applySsmInformation (m : List (String × InstInfo))
    (ssmPages : List (List SsmInstanceInformation)) : List (String × InstInfo) :=
  ssmPages.foldl
    (fun m page => page.foldl
      (fun m info => dictModify m info.instanceId
        (fun i => { i with ssmManaged := true,
                           ssmAgentStatus := info.pingStatus.getD "Unknown" })) m)
    m

/-! ### Classification rule (`IAM_Users_with_Navigation.py` lines 1723-1728)

`if failed > 0: 'NON_COMPLIANT_FAILED' elif missing > 0:
'NON_COMPLIANT_MISSING' else: 'COMPLIANT'`. -/

def classifyComplianceStatus (failed missing : Int) : String :=
  if failed > 0 then "NON_COMPLIANT_FAILED"
  else if missing > 0 then "NON_COMPLIANT_MISSING"
  else "COMPLIANT"

/-- The Lambda reporter's per-instance compliance test
(`final_corrected_patch_compliance_lambda.py` lines 174-181):
`missing = max(0, ...); failed = max(0, ...); compliant iff
missing == 0 and failed == 0`. -/
def lambdaInstanceCompliant (state : InstancePatchState) : Bool :=
  max 0 (state.missingCount.getD 0) == 0 && max 0 (state.failedCount.getD 0) == 0

/-! ### Stage 3: compliance summaries (`patch_compliance_final.py` lines 126-151)

For every summary item whose `ResourceId` is a key of `instance_map`, append
one record carrying `summary.get('Status', 'NON_COMPLIANT')` and mark the
entry `processed`; items with unknown ids are skipped (`continue`). -/

/-- The record appended at lines 137-148 for one compliance summary item. -/
def summaryRecord (accountName region iid status : String) (info : InstInfo) :
    ComplianceRecord :=
  { accountName := accountName
    region := region
    instanceId := iid
    instanceName := info.name
    platform := info.platform
    complianceStatus := status
    ssmAgentStatus := info.ssmAgentStatus
    instanceState := info.state
    launchTime := info.launch
    managed := info.ssmManaged
    installedPatches := none
    missingPatches := none
    failedPatches := none
    unspecifiedPatches := none }

/-- The summary loop: threads the growing `instances` list and the mutated
`instance_map` through every page and item. -/
def processComplianceSummaries (accountName region : String)
    (state : List ComplianceRecord × List (String × InstInfo))
    (summaryPages : List (List ComplianceSummary)) :
    List ComplianceRecord × List (String × InstInfo) :=
  summaryPages.foldl
    (fun st page => page.foldl
      (fun st s =>
        let iid := s.resourceId.getD ""
        match dictLookup st.2 iid with
        | none => st
        | some info =>
          (st.1 ++ [summaryRecord accountName region iid
              (s.status.getD "NON_COMPLIANT") info],
           dictModify st.2 iid (fun i => { i with processed := true }))) st)
    state

/-! ### Stage 4: per-instance patch states (`patch_compliance_final.py` lines 153-173)

`for iid in list(instance_map.keys()): if processed:` call
`describe_instance_patch_states(InstanceIds=[iid])` and, when it returns a
state, update the *first* record in `instances` with that id (`break`).
`none` models both an exception and an empty `InstancePatchStates`. -/

/-- The four count fields written at lines 165-168. -/
def setPatchCounts (r : ComplianceRecord) (st : InstancePatchState) :
    ComplianceRecord :=
  { r with
    installedPatches := some (st.installedCount.getD 0)
    missingPatches := some (st.missingCount.getD 0)
    failedPatches := some (st.failedCount.getD 0)
    unspecifiedPatches := some (st.notApplicableCount.getD 0 +
      st.unreportedNotApplicableCount.getD 0) }

/-- `for inst in instances: if inst['Instance ID'] == iid: ...; break`. -/
def updateFirstRecord (iid : String) (st : InstancePatchState) :
    List ComplianceRecord → List ComplianceRecord
  | [] => []
  | r :: rs =>
    if r.instanceId == iid then setPatchCounts r st :: rs
    else r :: updateFirstRecord iid st rs

/-- The patch-state loop over `instance_map` keys. -/
def applyPatchStates (recs : List ComplianceRecord)
    (m : List (String × InstInfo))
    (patchStateFor : String → Option InstancePatchState) : List ComplianceRecord :=
  m.foldl
    (fun recs p =>
      if p.2.processed then
        match patchStateFor p.1 with
        | some st => updateFirstRecord p.1 st recs
        | none => recs
      else recs)
    recs

/-! ### Stage 5: unmanaged fallback (`patch_compliance_final.py` lines 175-193) -/

/-- The record appended for instances that are neither processed nor
SSM-managed: status `UNMANAGED`, agent `Not Installed`, all counts zero. -/
def unmanagedRecord (accountName region iid : String) (info : InstInfo) :
    ComplianceRecord :=
  { accountName := accountName
    region := region
    instanceId := iid
    instanceName := info.name
    platform := info.platform
    complianceStatus := "UNMANAGED"
    ssmAgentStatus := "Not Installed"
    instanceState := info.state
    launchTime := info.launch
    managed := false
    installedPatches := some 0
    missingPatches := some 0
    failedPatches := some 0
    unspecifiedPatches := some 0 }

/-- `for iid, info in instance_map.items(): if not processed and not
ssm_managed: instances.append({... 'UNMANAGED' ...})`. -/
def addUnmanagedInstances (accountName region : String)
    (recs : List ComplianceRecord) (m : List (String × InstInfo)) :
    List ComplianceRecord :=
  m.foldl
    (fun recs p =>
      if !p.2.processed && !p.2.ssmManaged then
        recs ++ [unmanagedRecord accountName region p.1 p.2]
      else recs)
    recs

/-- The `instances` output of `fetch_account_region_data`
(`patch_compliance_final.py` lines 94-193): the five stages in source order. -/
def fetch_account_region_instances (accountName region : String)
    (ec2Pages : List (List (List Ec2Instance)))
    (ssmPages : List (List SsmInstanceInformation))
    (summaryPages : List (List ComplianceSummary))
    (patchStateFor : String → Option InstancePatchState) : List ComplianceRecord :=
  let m0 := buildInstanceMap ec2Pages
  let m1 := applySsmInformation m0 ssmPages
  let st := processComplianceSummaries accountName region ([], m1) summaryPages
  let recs := applyPatchStates st.1 st.2 patchStateFor
  addUnmanagedInstances accountName region recs st.2

/-- The post-registry `instance_map` (stages 1-2), whose key count is the
unit's inventory count. -/
def inventoryMap (ec2Pages : List (List (List Ec2Instance)))
    (ssmPages : List (List SsmInstanceInformation)) : List (String × InstInfo) :=
  applySsmInformation (buildInstanceMap ec2Pages) ssmPages

/-! ### Patch groups (`patch_compliance_final.py` lines 196-225) -/

/-- One `Mappings` entry of `describe_patch_groups`. -/
structure PatchGroupMapping where
  patchGroup : Option String
  baselineId : Option String
deriving Repr, DecidableEq

/-- The `describe_patch_group_state` response fields, `Option Int` for the
`.get(key, 0)` reads. -/
structure PatchGroupState where
  instances : Option Int
  instancesWithInstalledPatches : Option Int
  instancesWithMissingPatches : Option Int
  instancesWithFailedPatches : Option Int
  instancesWithNotApplicablePatches : Option Int
  instancesWithUnreportedNotApplicablePatches : Option Int
deriving Repr, DecidableEq

/-- One row of the `groups` output list. -/
structure PatchGroupRecord where
  accountName : String
  region : String
  patchGroup : String
  baselineId : String
  instancesCount : Int
  compliant : Int
  nonCompliant : Int
  unspecified : Int
deriving Repr, DecidableEq

/-- The patch-group loop: for each mapping, fetch the group state
(`none` models the inner `except ... pass`, skipping just that group) and
append a record only when `count > 0`. -/
def fetch_patch_groups (accountName region : String)
    (groupPages : List (List PatchGroupMapping))
    (groupStateFor : String → Option PatchGroupState) : List PatchGroupRecord :=
  groupPages.foldl
    (fun gs page => page.foldl
      (fun gs mp =>
        let groupName := mp.patchGroup.getD "N/A"
        match groupStateFor groupName with
        | none => gs
        | some resp =>
          let count := resp.instances.getD 0
          if count > 0 then
            gs ++ [{ accountName := accountName
                     region := region
                     patchGroup := groupName
                     baselineId := mp.baselineId.getD "N/A"
                     instancesCount := count
                     compliant := resp.instancesWithInstalledPatches.getD 0
                     nonCompliant := resp.instancesWithMissingPatches.getD 0 +
                       resp.instancesWithFailedPatches.getD 0
                     unspecified := resp.instancesWithNotApplicablePatches.getD 0 +
                       resp.instancesWithUnreportedNotApplicablePatches.getD 0 }]
          else gs) gs)
    []

/-! ### Available patches (`patch_compliance_final.py` lines 227-243) and the
presentation layer's deduplication (line 556:
`pat_df.drop_duplicates(subset=['Patch ID'])`). -/

/-- One `Patches` entry of `describe_available_patches`. -/
structure AvailablePatch where
  id : Option String
  title : Option String
  classification : Option String
  severity : Option String
  releaseDate : Option String
  contentUrl : Option String
deriving Repr, DecidableEq

/-- One row of the `patches` output list. -/
structure CatalogPatchRecord where
  accountName : String
  region : String
  patchId : String
  title : String
  classification : String
  severity : String
  releaseDate : Option String
  contentUrl : String
deriving Repr, DecidableEq

/-- The catalog-collection loop: one row per `Patches` entry on every page. -/
def fetch_available_patches (accountName region : String)
    (patchPages : List (List AvailablePatch)) : List CatalogPatchRecord :=
  patchPages.foldl
    (fun ps page => page.foldl
      (fun ps p =>
        ps ++ [{ accountName := accountName
                 region := region
                 patchId := p.id.getD "N/A"
                 title := p.title.getD "N/A"
                 classification := p.classification.getD "N/A"
                 severity := p.severity.getD "N/A"
                 releaseDate := p.releaseDate
                 contentUrl := p.contentUrl.getD "N/A" }]) ps)
    []

/-- `drop_duplicates(subset=['Patch ID'])`: keep the first row for each
patch identifier, preserving order. -/
def unique_patches : List CatalogPatchRecord → List CatalogPatchRecord
  | [] => []
  | p :: ps =>
    p :: unique_patches (ps.filter (fun q => !(q.patchId == p.patchId)))
termination_by l => l.length
decreasing_by
  simp only [List.length_cons]
  exact Nat.lt_succ_of_le (List.length_filter_le _ _)

/-! ### Parallel aggregator (`patch_compliance_final.py` lines 247-285)

Each (account, region) unit's task either returns
`(instances, groups, patches, errors)` or raises; `fetch_all_data` consumes
the futures in completion order (modelled as an arbitrary list order),
extending the four accumulators on success and appending one tagged error
string on an exception. -/

/-- The four lists returned by one successful `fetch_account_region_data`. -/
structure UnitResult where
  instances : List ComplianceRecord
  groups : List PatchGroupRecord
  patches : List CatalogPatchRecord
  errors : List String

/-- One submitted unit: its labels and its task outcome
(`Except.error msg` models `f.result()` raising with message `msg`). -/
structure UnitTask where
  accountName : String
  region : String
  outcome : Except String UnitResult

/-- The aggregate accumulators `all_inst, all_grp, all_pat, all_err`. -/
structure AggregateResult where
  allInst : List ComplianceRecord
  allGrp : List PatchGroupRecord
  allPat : List CatalogPatchRecord
  allErr : List String
deriving DecidableEq

/-- Line 280: `all_err.append(f"❌ {aname}/{rgn}: {str(ex)[:50]}")`. -/
def unitFailureMessage (accountName region msg : String) : String :=
  "❌ " ++ accountName ++ "/" ++ region ++ ": " ++ msg.take 50

/-- The aggregation loop of `fetch_all_data` over completed units. -/
def fetch_all_data (units : List UnitTask) : AggregateResult :=
  units.foldl
    (fun acc u =>
      match u.outcome with
      | .ok r =>
        { acc with
          allInst := acc.allInst ++ r.instances
          allGrp := acc.allGrp ++ r.groups
          allPat := acc.allPat ++ r.patches
          allErr := acc.allErr ++ r.errors }
      | .error msg =>
        { acc with
          allErr := acc.allErr ++
            [unitFailureMessage u.accountName u.region msg] })
    ⟨[], [], [], []⟩

/-! ### The Lambda reporter (`final_corrected_patch_compliance_lambda.py`) -/

/-- Server-side semantics of the `describe_instances` state filter used at
lines 97-101: `instance-state-name in ['running', 'stopped']`. -/
def runningOrStopped (inst : Ec2Instance) : Bool :=
  inst.state == "running" || inst.state == "stopped"

/-- `get_ec2_instances` (lines 90-110): walk every page, reservation and
instance of the (already filtered) response, collecting instance ids. -/
def get_ec2_instances (pages : List (List (List Ec2Instance))) : List String :=
  pages.foldl
    (fun acc page => page.foldl
      (fun acc res => res.foldl
        (fun acc inst => acc ++ [inst.instanceId]) acc) acc)
    []

/-- The batch slicing `for i in range(0, len(managed_instances), batch_size)`
with `batch_size = 50` (lines 163-165): the list of `InstanceIds` arguments
of the successive `describe_instance_patch_states` calls. -/
def lambdaPatchStateBatches : List String → List (List String)
  | [] => []
  | x :: xs => (x :: xs).take 50 :: lambdaPatchStateBatches ((x :: xs).drop 50)
termination_by l => l.length
decreasing_by
  simp only [List.length_drop, List.length_cons]
  omega

/-- The summary dict built by `get_patch_compliance_data`. -/
structure LambdaPatchSummary where
  totalManagedInstances : Nat
  compliantInstances : Nat
  nonCompliantInstances : Nat
  missingCount : Int
  failedCount : Int
  installedPendingRebootCount : Int
  installedOtherCount : Int
  installedRejectedCount : Int
  notApplicableCount : Int
deriving Repr, DecidableEq

/-- The zeroed summary (lines 134-144 / 150-160). -/
def emptyLambdaSummary (n : Nat) : LambdaPatchSummary :=
  ⟨n, 0, 0, 0, 0, 0, 0, 0, 0⟩

/-- The per-state update of lines 172-189: clamp each category with
`max(0, ...)`, bump the compliant/non-compliant counter, add to each sum. -/
def accumulatePatchState (s : LambdaPatchSummary) (st : InstancePatchState) :
    LambdaPatchSummary :=
  let missing := max 0 (st.missingCount.getD 0)
  let failed := max 0 (st.failedCount.getD 0)
  let s :=
    if missing == 0 && failed == 0 then
      { s with compliantInstances := s.compliantInstances + 1 }
    else
      { s with nonCompliantInstances := s.nonCompliantInstances + 1 }
  { s with
    missingCount := s.missingCount + missing
    failedCount := s.failedCount + failed
    installedPendingRebootCount := s.installedPendingRebootCount +
      max 0 (st.installedPendingRebootCount.getD 0)
    installedOtherCount := s.installedOtherCount +
      max 0 (st.installedOtherCount.getD 0)
    installedRejectedCount := s.installedRejectedCount +
      max 0 (st.installedRejectedCount.getD 0)
    notApplicableCount := s.notApplicableCount +
      max 0 (st.notApplicableCount.getD 0) }

/-- `get_patch_compliance_data` (lines 131-195): early-return the zero
summary on an empty input, otherwise fold the batched patch states;
`fetchBatch = none` models a failed batch (`continue`). -/
def get_patch_compliance_data (managedInstances : List String)
    (fetchBatch : List String → Option (List InstancePatchState)) :
    LambdaPatchSummary :=
  if managedInstances.isEmpty then emptyLambdaSummary 0
  else
    (lambdaPatchStateBatches managedInstances).foldl
      (fun s batch =>
        match fetchBatch batch with
        | none => s
        | some states => states.foldl accumulatePatchState s)
      (emptyLambdaSummary managedInstances.length)

/-! ### `completely_corrected_patch_compliance_lambda.py` -/

/-- `not_managed_count = max(0, total_ec2_instances - managed_count)`
(`get_instance_management_summary_from_explorer`, line 131, and the
fallback at line 186). -/
def not_managed_count (totalEc2Instances managedCount : Int) : Int :=
  max 0 (totalEc2Instances - managedCount)

/-- The `compliance_details` dict of
`get_detailed_noncompliance_counts_from_patch_states`. -/
structure NoncomplianceCounts where
  missingCount : Int
  failedCount : Int
  installedPendingRebootCount : Int
  installedOtherCount : Int
  installedRejectedCount : Int
  notApplicableCount : Int
deriving Repr, DecidableEq

/-- The per-state update of lines 305-311: each category clamped with
`max(0, ...)` before summing. -/
def accumulateNoncomplianceCounts (c : NoncomplianceCounts)
    (st : InstancePatchState) : NoncomplianceCounts :=
  { missingCount := c.missingCount + max 0 (st.missingCount.getD 0)
    failedCount := c.failedCount + max 0 (st.failedCount.getD 0)
    installedPendingRebootCount := c.installedPendingRebootCount +
      max 0 (st.installedPendingRebootCount.getD 0)
    installedOtherCount := c.installedOtherCount +
      max 0 (st.installedOtherCount.getD 0)
    installedRejectedCount := c.installedRejectedCount +
      max 0 (st.installedRejectedCount.getD 0)
    notApplicableCount := c.notApplicableCount +
      max 0 (st.notApplicableCount.getD 0) }

/-- `get_detailed_noncompliance_counts_from_patch_states` (lines 269-324):
batch the managed instances (batch size 50), skip failed batches, sum the
clamped categories. -/
def get_detailed_noncompliance_counts (managedInstances : List String)
    (fetchBatch : List String → Option (List InstancePatchState)) :
    NoncomplianceCounts :=
  if managedInstances.isEmpty then ⟨0, 0, 0, 0, 0, 0⟩
  else
    (lambdaPatchStateBatches managedInstances).foldl
      (fun c batch =>
        match fetchBatch batch with
        | none => c
        | some states => states.foldl accumulateNoncomplianceCounts c)
      ⟨0, 0, 0, 0, 0, 0⟩

/-! ### Specification-side helper definitions -/

/-- The key list of `instance_map`. -/
def dictKeys (m : List (String × InstInfo)) : List String := m.map Prod.fst

/-- The `ResourceId` read out of one summary item (`summary.get('ResourceId', '')`). -/
def summaryId (s : ComplianceSummary) : String := s.resourceId.getD ""

/-- The ids of a flattened summary listing, in iteration order. -/
def summaryIds (ss : List ComplianceSummary) : List String := ss.map summaryId

/-- Marking a set of keys processed, as one traversal of the map. -/
def procMark (ids : List String) (m : List (String × InstInfo)) :
    List (String × InstInfo) :=
  m.map (fun p =>
    if p.1 ∈ ids then (p.1, { p.2 with processed := true }) else p)

/-- The record (if any) that one summary item contributes, read against a
fixed map. -/
def summaryRecordFor (accountName region : String) (m : List (String × InstInfo))
    (s : ComplianceSummary) : Option ComplianceRecord :=
  (dictLookup m (summaryId s)).map
    (fun info => summaryRecord accountName region (summaryId s)
      (s.status.getD "NON_COMPLIANT") info)

/-- The single-list form of the summary loop. -/
def processSummariesFlat (accountName region : String)
    (state : List ComplianceRecord × List (String × InstInfo))
    (ss : List ComplianceSummary) :
    List ComplianceRecord × List (String × InstInfo) :=
  ss.foldl
    (fun st s =>
      let iid := s.resourceId.getD ""
      match dictLookup st.2 iid with
      | none => st
      | some info =>
        (st.1 ++ [summaryRecord accountName region iid
            (s.status.getD "NON_COMPLIANT") info],
         dictModify st.2 iid (fun i => { i with processed := true }))) state

/-- The sequence of `InstanceIds` arguments issued by the dashboard's
patch-state loop (`patch_compliance_final.py` lines 155-158): one
`describe_instance_patch_states(InstanceIds=[iid])` call per processed map
entry. -/
def dashboardPatchStateCalls (m : List (String × InstInfo)) : List (List String) :=
  m.foldl (fun calls p => if p.2.processed then calls ++ [[p.1]] else calls) []

/-- How many instance records one unit contributes to the aggregate. -/
def unitInstanceCount (u : UnitTask) : Nat :=
  match u.outcome with
  | .ok r => r.instances.length
  | .error _ => 0

/-- How many error strings one unit contributes to the aggregate: its own
error list on success, exactly one tagged failure string on an exception. -/
def unitErrorCount (u : UnitTask) : Nat :=
  match u.outcome with
  | .ok r => r.errors.length
  | .error _ => 1

/-- The group records contributed by a single patch-group mapping. -/
def groupRecordsFor (accountName region : String)
    (groupStateFor : String → Option PatchGroupState) (mp : PatchGroupMapping) :
    List PatchGroupRecord :=
  match groupStateFor (mp.patchGroup.getD "N/A") with
  | none => []
  | some resp =>
    if resp.instances.getD 0 > 0 then
      [{ accountName := accountName
         region := region
         patchGroup := mp.patchGroup.getD "N/A"
         baselineId := mp.baselineId.getD "N/A"
         instancesCount := resp.instances.getD 0
         compliant := resp.instancesWithInstalledPatches.getD 0
         nonCompliant := resp.instancesWithMissingPatches.getD 0 +
           resp.instancesWithFailedPatches.getD 0
         unspecified := resp.instancesWithNotApplicablePatches.getD 0 +
           resp.instancesWithUnreportedNotApplicablePatches.getD 0 }]
    else []

/-- All six clamped per-category sums of the Lambda summary are non-negative. -/
def lambdaSummaryCountsNonneg (s : LambdaPatchSummary) : Prop :=
  0 ≤ s.missingCount ∧ 0 ≤ s.failedCount ∧ 0 ≤ s.installedPendingRebootCount ∧
  0 ≤ s.installedOtherCount ∧ 0 ≤ s.installedRejectedCount ∧
  0 ≤ s.notApplicableCount

/-- All six clamped per-category sums of the detailed noncompliance counts
are non-negative. -/
def noncomplianceCountsNonneg (c : NoncomplianceCounts) : Prop :=
  0 ≤ c.missingCount ∧ 0 ≤ c.failedCount ∧ 0 ≤ c.installedPendingRebootCount ∧
  0 ≤ c.installedOtherCount ∧ 0 ≤ c.installedRejectedCount ∧
  0 ≤ c.notApplicableCount

/-! ### Helper lemmas: association-map semantics -/



theorem dictContains_iff (m : List (String × InstInfo)) (k : String) :
    dictContains m k = true ↔ k ∈ dictKeys m := by
  simp only [dictContains, dictKeys, List.any_eq_true, beq_iff_eq, List.mem_map]

theorem dictLookup_isSome_iff (m : List (String × InstInfo)) (k : String) :
    (dictLookup m k).isSome = true ↔ k ∈ dictKeys m := by
  simp only [dictLookup, dictKeys, List.mem_map]
  rw [Option.isSome_map']
  simp only [List.find?_isSome, beq_iff_eq]

theorem dictLookup_eq_none_iff (m : List (String × InstInfo)) (k : String) :
    dictLookup m k = none ↔ k ∉ dictKeys m := by
  rw [← dictLookup_isSome_iff]
  rcases h : dictLookup m k with _ | v <;> simp [h]

theorem mem_of_dictLookup_eq_some {m : List (String × InstInfo)} {k : String}
    {v : InstInfo} (h : dictLookup m k = some v) : (k, v) ∈ m := by
  simp only [dictLookup, Option.map_eq_some'] at h
  obtain ⟨p, hfind, rfl⟩ := h
  have hp : p.1 = k := by
    have := List.find?_some hfind
    simpa [beq_iff_eq] using this
  have hmem := List.mem_of_find?_eq_some hfind
  have : p = (k, p.2) := by
    cases p
    simp_all
  rwa [← this]

theorem dictLookup_eq_of_mem_nodup {m : List (String × InstInfo)} {k : String}
    {v : InstInfo} (hnd : (dictKeys m).Nodup) (hmem : (k, v) ∈ m) :
    dictLookup m k = some v := by
  induction m with
  | nil => cases hmem
  | cons p rest ih =>
    simp only [dictKeys, List.map_cons, List.nodup_cons] at hnd
    rcases List.mem_cons.mp hmem with heq | htail
    · subst heq
      simp [dictLookup]
    · have hne : p.1 ≠ k := by
        intro hcontra
        exact hnd.1 (hcontra ▸ (List.mem_map.mpr ⟨(k, v), htail, rfl⟩))
      simp only [dictLookup, List.find?_cons]
      rw [show (p.1 == k) = false by simp [hne]]
      exact ih hnd.2 htail

theorem dictModify_map_fst (m : List (String × InstInfo)) (k : String)
    (f : InstInfo → InstInfo) :
    (dictModify m k f).map Prod.fst = m.map Prod.fst := by
  simp only [dictModify, List.map_map]
  apply List.map_congr_left
  intro p _
  simp only [Function.comp_apply]
  split <;> rfl

theorem dictInsert_map_fst (m : List (String × InstInfo)) (k : String)
    (v : InstInfo) :
    (dictInsert m k v).map Prod.fst =
      if dictContains m k then m.map Prod.fst else m.map Prod.fst ++ [k] := by
  unfold dictInsert
  rcases h : dictContains m k with _ | _
  · simp [h]
  · simp only [h, if_true, List.map_map]
    apply List.map_congr_left
    intro p _
    simp only [Function.comp_apply]
    split <;> rfl

theorem dictInsert_nodup_keys {m : List (String × InstInfo)} (k : String)
    (v : InstInfo) (hnd : (dictKeys m).Nodup) :
    (dictKeys (dictInsert m k v)).Nodup := by
  unfold dictKeys
  rw [dictInsert_map_fst]
  by_cases h : dictContains m k = true
  · rw [if_pos h]
    exact hnd
  · rw [if_neg h]
    have hk : k ∉ m.map Prod.fst := by
      intro hmem
      exact h ((dictContains_iff m k).mpr hmem)
    rw [List.nodup_append]
    refine ⟨hnd, by simp, ?_⟩
    intro a ha hak
    rw [List.mem_singleton] at hak
    exact hk (hak ▸ ha)

/-- Membership in a modified map: every entry is an original entry, possibly
with the value rewritten. -/
theorem mem_dictModify {m : List (String × InstInfo)} {k : String}
    {f : InstInfo → InstInfo} {p : String × InstInfo}
    (h : p ∈ dictModify m k f) :
    ∃ q ∈ m, p = q ∨ p = (q.1, f q.2) := by
  simp only [dictModify, List.mem_map] at h
  obtain ⟨q, hq, hpq⟩ := h
  refine ⟨q, hq, ?_⟩
  by_cases hk : q.1 == k
  · right
    rw [← hpq]
    simp [hk]
  · left
    rw [← hpq]
    simp [hk]

/-! ### Helper lemmas: stages 1-2 build a map with distinct, unprocessed keys -/

/-- The EC2 fold, flattened. -/
theorem buildInstanceMap_eq_flat (ec2Pages : List (List (List Ec2Instance))) :
    buildInstanceMap ec2Pages =
      (ec2Pages.flatten.flatten).foldl
        (fun m inst => dictInsert m inst.instanceId (initialInstInfo inst)) [] := by
  unfold buildInstanceMap
  rw [List.foldl_flatten, List.foldl_flatten]

/-- The SSM-registry fold, flattened. -/
theorem applySsmInformation_eq_flat (m : List (String × InstInfo))
    (ssmPages : List (List SsmInstanceInformation)) :
    applySsmInformation m ssmPages =
      ssmPages.flatten.foldl
        (fun m info => dictModify m info.instanceId
          (fun i => { i with ssmManaged := true,
                             ssmAgentStatus := info.pingStatus.getD "Unknown" })) m := by
  unfold applySsmInformation
  rw [List.foldl_flatten]

theorem foldl_dictInsert_nodup_keys (l : List Ec2Instance)
    (m : List (String × InstInfo)) (hnd : (dictKeys m).Nodup) :
    (dictKeys (l.foldl
      (fun m inst => dictInsert m inst.instanceId (initialInstInfo inst)) m)).Nodup := by
  induction l generalizing m with
  | nil => exact hnd
  | cons x xs ih => exact ih _ (dictInsert_nodup_keys _ _ hnd)

theorem buildInstanceMap_nodup_keys (ec2Pages : List (List (List Ec2Instance))) :
    (dictKeys (buildInstanceMap ec2Pages)).Nodup := by
  rw [buildInstanceMap_eq_flat]
  exact foldl_dictInsert_nodup_keys _ [] (by simp [dictKeys])

theorem applySsmInformation_map_fst (m : List (String × InstInfo))
    (ssmPages : List (List SsmInstanceInformation)) :
    (applySsmInformation m ssmPages).map Prod.fst = m.map Prod.fst := by
  rw [applySsmInformation_eq_flat]
  induction ssmPages.flatten generalizing m with
  | nil => rfl
  | cons x xs ih => rw [List.foldl_cons, ih, dictModify_map_fst]

theorem inventoryMap_nodup_keys (ec2Pages : List (List (List Ec2Instance)))
    (ssmPages : List (List SsmInstanceInformation)) :
    (dictKeys (inventoryMap ec2Pages ssmPages)).Nodup := by
  unfold inventoryMap dictKeys
  rw [applySsmInformation_map_fst]
  exact buildInstanceMap_nodup_keys ec2Pages

/-- Value invariants survive `dictInsert` with invariant-satisfying values. -/
theorem mem_dictInsert_inv (P : InstInfo → Prop) {m : List (String × InstInfo)}
    {k : String} {v : InstInfo} (hv : P v) (hm : ∀ p ∈ m, P p.2) :
    ∀ p ∈ dictInsert m k v, P p.2 := by
  intro p hp
  unfold dictInsert at hp
  by_cases h : dictContains m k = true
  · rw [if_pos h] at hp
    obtain ⟨q, hq, hpq⟩ := List.mem_map.mp hp
    rw [← hpq]
    split
    · exact hv
    · exact hm q hq
  · rw [if_neg h] at hp
    rcases List.mem_append.mp hp with hp | hp
    · exact hm p hp
    · rw [List.mem_singleton] at hp
      rw [hp]
      exact hv

/-- Value invariants survive `dictModify` with an invariant-preserving
rewrite. -/
theorem mem_dictModify_inv (P : InstInfo → Prop) {m : List (String × InstInfo)}
    {k : String} (f : InstInfo → InstInfo) (hf : ∀ i, P i → P (f i))
    (hm : ∀ p ∈ m, P p.2) : ∀ p ∈ dictModify m k f, P p.2 := by
  intro p hp
  obtain ⟨q, hq, hpq | hpq⟩ := mem_dictModify hp
  · exact hpq ▸ hm q hq
  · rw [hpq]
    exact hf _ (hm q hq)

/-- Every entry of the post-registry map is unprocessed: stage 1 writes
`processed := false` and stage 2 leaves the flag alone. -/
theorem inventoryMap_unprocessed (ec2Pages : List (List (List Ec2Instance)))
    (ssmPages : List (List SsmInstanceInformation)) :
    ∀ p ∈ inventoryMap ec2Pages ssmPages, p.2.processed = false := by
  have h1 : ∀ p ∈ buildInstanceMap ec2Pages, p.2.processed = false := by
    rw [buildInstanceMap_eq_flat]
    generalize ec2Pages.flatten.flatten = l
    have key : ∀ (m : List (String × InstInfo)), (∀ p ∈ m, p.2.processed = false) →
        ∀ p ∈ l.foldl
          (fun m inst => dictInsert m inst.instanceId (initialInstInfo inst)) m,
          p.2.processed = false := by
      induction l with
      | nil => exact fun m hm => hm
      | cons x xs ih =>
        intro m hm
        exact ih _ (mem_dictInsert_inv (fun i => i.processed = false) rfl hm)
    exact key [] (by simp)
  unfold inventoryMap
  rw [applySsmInformation_eq_flat]
  generalize ssmPages.flatten = l
  have key : ∀ (m : List (String × InstInfo)), (∀ p ∈ m, p.2.processed = false) →
      ∀ p ∈ l.foldl
        (fun m info => dictModify m info.instanceId
          (fun i => { i with ssmManaged := true,
                             ssmAgentStatus := info.pingStatus.getD "Unknown" })) m,
        p.2.processed = false := by
    induction l with
    | nil => exact fun m hm => hm
    | cons x xs ih =>
      intro m hm
      exact ih _ (mem_dictModify_inv (fun i => i.processed = false)
        (fun i => { i with ssmManaged := true,
                           ssmAgentStatus := x.pingStatus.getD "Unknown" })
        (fun i h => h) hm)
  exact key _ h1

/-! ### Helper lemmas: characterizing the summary-processing stage -/











theorem processComplianceSummaries_eq_flat (accountName region : String)
    (state : List ComplianceRecord × List (String × InstInfo))
    (summaryPages : List (List ComplianceSummary)) :
    processComplianceSummaries accountName region state summaryPages =
      processSummariesFlat accountName region state summaryPages.flatten := by
  unfold processComplianceSummaries processSummariesFlat
  rw [List.foldl_flatten]

theorem procMark_nil (m : List (String × InstInfo)) : procMark [] m = m := by
  unfold procMark
  simp

theorem procMark_map_fst (ids : List String) (m : List (String × InstInfo)) :
    (procMark ids m).map Prod.fst = m.map Prod.fst := by
  unfold procMark
  rw [List.map_map]
  apply List.map_congr_left
  intro p _
  simp only [Function.comp_apply]
  split <;> rfl

theorem dictLookup_procMark (ids : List String) (m : List (String × InstInfo))
    (k : String) :
    dictLookup (procMark ids m) k =
      (dictLookup m k).map
        (fun v => if k ∈ ids then { v with processed := true } else v) := by
  unfold dictLookup procMark
  rw [List.find?_map]
  have hpred : ((fun (p : String × InstInfo) => p.1 == k) ∘
      (fun (p : String × InstInfo) =>
        if p.1 ∈ ids then (p.1, { p.2 with processed := true }) else p)) =
      (fun (p : String × InstInfo) => p.1 == k) := by
    funext p
    simp only [Function.comp_apply]
    by_cases h : p.1 ∈ ids <;> simp [h]
  rw [hpred]
  rcases hf : List.find? (fun (p : String × InstInfo) => p.1 == k) m with _ | q
  · simp
  · have hq : q.1 = k := by
      have := List.find?_some hf
      simpa [beq_iff_eq] using this
    simp only [Option.map_some']
    rw [hq]
    by_cases hk : k ∈ ids <;> simp [hk]

/-- Re-marking a key that is already processed (or marking inside a larger
id set) commutes into `procMark`. -/
theorem dictModify_procMark (ids : List String) (m : List (String × InstInfo))
    (j : String) :
    dictModify (procMark ids m) j (fun i => { i with processed := true }) =
      procMark (ids ++ [j]) m := by
  unfold dictModify procMark
  rw [List.map_map]
  apply List.map_congr_left
  intro p _
  simp only [Function.comp_apply, List.mem_append, List.mem_singleton]
  by_cases h2 : p.1 = j
  · subst h2
    by_cases h1 : p.1 ∈ ids <;> simp [h1]
  · by_cases h1 : p.1 ∈ ids <;> simp [h1, h2]

/-- Marking keys absent from the map is invisible. -/
theorem procMark_notkey (ids₁ ids₂ : List String) (m : List (String × InstInfo))
    (j : String) (hj : j ∉ dictKeys m) :
    procMark (ids₁ ++ j :: ids₂) m = procMark (ids₁ ++ ids₂) m := by
  unfold procMark
  apply List.map_congr_left
  intro p hp
  have hpj : p.1 ≠ j := by
    intro hcontra
    exact hj (hcontra ▸ List.mem_map.mpr ⟨p, hp, rfl⟩)
  by_cases h : p.1 ∈ ids₁ ++ ids₂
  · have : p.1 ∈ ids₁ ++ j :: ids₂ := by
      rcases List.mem_append.mp h with h | h
      · exact List.mem_append.mpr (Or.inl h)
      · exact List.mem_append.mpr (Or.inr (List.mem_cons_of_mem _ h))
    simp [h, this]
  · have : p.1 ∉ ids₁ ++ j :: ids₂ := by
      intro hcontra
      rcases List.mem_append.mp hcontra with hc | hc
      · exact h (List.mem_append.mpr (Or.inl hc))
      · rcases List.mem_cons.mp hc with hc | hc
        · exact hpj hc
        · exact h (List.mem_append.mpr (Or.inr hc))
    simp [h, this]

/-- The processed flag is the only difference `procMark` makes to a summary
record's source fields. -/
theorem summaryRecord_procInvariant (accountName region iid status : String)
    (v : InstInfo) :
    summaryRecord accountName region iid status { v with processed := true } =
      summaryRecord accountName region iid status v := rfl

/-- Full characterization of the summary loop: starting from records `recs`
and the map `m` with `ids` already marked, it appends exactly one record per
summary item whose id is a key of `m` (with fields read from `m`), and marks
every summary id. -/
theorem processSummariesFlat_spec (accountName region : String)
    (m : List (String × InstInfo)) (ss : List ComplianceSummary)
    (recs : List ComplianceRecord) (ids : List String) :
    processSummariesFlat accountName region (recs, procMark ids m) ss =
      (recs ++ ss.filterMap (summaryRecordFor accountName region m),
       procMark (ids ++ summaryIds ss) m) := by
  induction ss generalizing recs ids with
  | nil =>
    simp [processSummariesFlat, summaryIds]
  | cons s rest ih =>
    have hstep : processSummariesFlat accountName region
        (recs, procMark ids m) (s :: rest) =
        processSummariesFlat accountName region
          (match dictLookup (procMark ids m) (s.resourceId.getD "") with
           | none => (recs, procMark ids m)
           | some info =>
             (recs ++ [summaryRecord accountName region (s.resourceId.getD "")
                 (s.status.getD "NON_COMPLIANT") info],
              dictModify (procMark ids m) (s.resourceId.getD "")
                (fun i => { i with processed := true }))) rest := by
      unfold processSummariesFlat
      rw [List.foldl_cons]
    rcases hl : dictLookup m (summaryId s) with _ | info
    · have hlp : dictLookup (procMark ids m) (s.resourceId.getD "") = none := by
        rw [show s.resourceId.getD "" = summaryId s from rfl, dictLookup_procMark, hl]
        rfl
      rw [hstep]
      simp only [hlp]
      rw [ih recs ids]
      have hkey : summaryId s ∉ dictKeys m := by
        rw [← dictLookup_eq_none_iff]
        exact hl
      have hrw : procMark (ids ++ summaryIds (s :: rest)) m =
          procMark (ids ++ summaryIds rest) m := by
        have : summaryIds (s :: rest) = summaryId s :: summaryIds rest := rfl
        rw [this]
        exact procMark_notkey ids (summaryIds rest) m (summaryId s) hkey
      rw [hrw]
      have hfm : (s :: rest).filterMap (summaryRecordFor accountName region m) =
          rest.filterMap (summaryRecordFor accountName region m) := by
        rw [List.filterMap_cons]
        have : summaryRecordFor accountName region m s = none := by
          unfold summaryRecordFor
          rw [hl]
          rfl
        rw [this]
      rw [hfm]
    · have hlp : dictLookup (procMark ids m) (s.resourceId.getD "") =
          some (if summaryId s ∈ ids then { info with processed := true } else info) := by
        rw [show s.resourceId.getD "" = summaryId s from rfl, dictLookup_procMark, hl]
        rfl
      rw [hstep]
      simp only [hlp]
      rw [show s.resourceId.getD "" = summaryId s from rfl]
      rw [dictModify_procMark]
      have hrec : summaryRecord accountName region (summaryId s)
          (s.status.getD "NON_COMPLIANT")
          (if summaryId s ∈ ids then { info with processed := true } else info) =
          summaryRecord accountName region (summaryId s)
            (s.status.getD "NON_COMPLIANT") info := by
        split <;> rfl
      rw [hrec]
      rw [ih (recs ++ [summaryRecord accountName region (summaryId s)
        (s.status.getD "NON_COMPLIANT") info]) (ids ++ [summaryId s])]
      have hfm : (s :: rest).filterMap (summaryRecordFor accountName region m) =
          summaryRecord accountName region (summaryId s)
            (s.status.getD "NON_COMPLIANT") info ::
          rest.filterMap (summaryRecordFor accountName region m) := by
        rw [List.filterMap_cons]
        have : summaryRecordFor accountName region m s =
            some (summaryRecord accountName region (summaryId s)
              (s.status.getD "NON_COMPLIANT") info) := by
          unfold summaryRecordFor
          rw [hl]
          rfl
        rw [this]
      rw [hfm]
      have hids : (ids ++ [summaryId s]) ++ summaryIds rest =
          ids ++ summaryIds (s :: rest) := by
        have : summaryIds (s :: rest) = summaryId s :: summaryIds rest := rfl
        rw [this, List.append_assoc]
        rfl
      rw [hids, List.append_assoc]
      rfl

/-- The summary stage, characterized against the post-registry map. -/
theorem processComplianceSummaries_spec (accountName region : String)
    (m : List (String × InstInfo)) (summaryPages : List (List ComplianceSummary)) :
    processComplianceSummaries accountName region ([], m) summaryPages =
      (summaryPages.flatten.filterMap (summaryRecordFor accountName region m),
       procMark (summaryIds summaryPages.flatten) m) := by
  rw [processComplianceSummaries_eq_flat]
  have h := processSummariesFlat_spec accountName region m summaryPages.flatten [] []
  rw [procMark_nil] at h
  simpa using h

/-! ### Helper lemmas: the patch-state stage preserves record identities,
the unmanaged stage appends a filter of the map -/

theorem updateFirstRecord_map_instanceId (iid : String) (st : InstancePatchState)
    (recs : List ComplianceRecord) :
    (updateFirstRecord iid st recs).map (fun r => r.instanceId) =
      recs.map (fun r => r.instanceId) := by
  induction recs with
  | nil => rfl
  | cons r rs ih =>
    unfold updateFirstRecord
    split
    · rfl
    · rw [List.map_cons, List.map_cons, ih]

theorem applyPatchStates_map_instanceId (recs : List ComplianceRecord)
    (m : List (String × InstInfo))
    (patchStateFor : String → Option InstancePatchState) :
    (applyPatchStates recs m patchStateFor).map (fun r => r.instanceId) =
      recs.map (fun r => r.instanceId) := by
  unfold applyPatchStates
  induction m generalizing recs with
  | nil => rfl
  | cons p rest ih =>
    rw [List.foldl_cons, ih]
    by_cases h : p.2.processed = true
    · rw [if_pos h]
      rcases patchStateFor p.1 with _ | st
      · rfl
      · exact updateFirstRecord_map_instanceId p.1 st recs
    · rw [if_neg h]

theorem addUnmanagedInstances_eq (accountName region : String)
    (recs : List ComplianceRecord) (m : List (String × InstInfo)) :
    addUnmanagedInstances accountName region recs m =
      recs ++ (m.filter (fun p => !p.2.processed && !p.2.ssmManaged)).map
        (fun p => unmanagedRecord accountName region p.1 p.2) := by
  unfold addUnmanagedInstances
  induction m generalizing recs with
  | nil => simp
  | cons p rest ih =>
    rw [List.foldl_cons, List.filter_cons]
    by_cases h : (!p.2.processed && !p.2.ssmManaged) = true
    · rw [if_pos h, if_pos h, ih, List.map_cons, List.append_assoc]
      rfl
    · rw [if_neg h, if_neg h, ih]

/-- The instance ids of the summary-derived records: the ids of the summary
items that found a key in the map, in order. -/
theorem filterMap_summaryRecordFor_map_instanceId (accountName region : String)
    (m : List (String × InstInfo)) (ss : List ComplianceSummary) :
    (ss.filterMap (summaryRecordFor accountName region m)).map
        (fun r => r.instanceId) =
      (ss.filter (fun s => (dictLookup m (summaryId s)).isSome)).map summaryId := by
  induction ss with
  | nil => rfl
  | cons s rest ih =>
    rw [List.filterMap_cons, List.filter_cons]
    rcases hl : dictLookup m (summaryId s) with _ | info
    · have h1 : summaryRecordFor accountName region m s = none := by
        unfold summaryRecordFor
        rw [hl]
        rfl
      simp only [h1, hl, Option.isSome_none, Bool.false_eq_true, if_false]
      exact ih
    · have h1 : summaryRecordFor accountName region m s =
          some (summaryRecord accountName region (summaryId s)
            (s.status.getD "NON_COMPLIANT") info) := by
        unfold summaryRecordFor
        rw [hl]
        rfl
      simp only [h1, hl, Option.isSome_some, if_true, List.map_cons]
      rw [ih]
      rfl

theorem mem_hitsIds_iff (m : List (String × InstInfo))
    (ss : List ComplianceSummary) (x : String) :
    x ∈ (ss.filter (fun s => (dictLookup m (summaryId s)).isSome)).map summaryId ↔
      x ∈ summaryIds ss ∧ x ∈ dictKeys m := by
  simp only [List.mem_map, List.mem_filter, summaryIds]
  constructor
  · rintro ⟨s, ⟨hs, hsome⟩, rfl⟩
    exact ⟨⟨s, hs, rfl⟩, (dictLookup_isSome_iff m (summaryId s)).mp hsome⟩
  · rintro ⟨⟨s, hs, rfl⟩, hk⟩
    exact ⟨s, ⟨hs, (dictLookup_isSome_iff m (summaryId s)).mpr hk⟩, rfl⟩

theorem hitsIds_nodup (m : List (String × InstInfo))
    (ss : List ComplianceSummary) (hnd : (summaryIds ss).Nodup) :
    ((ss.filter (fun s => (dictLookup m (summaryId s)).isSome)).map summaryId).Nodup :=
  hnd.sublist ((List.filter_sublist ss).map summaryId)

/-- The whole reconciliation, rewritten through the stage characterizations. -/
theorem fetch_account_region_instances_eq (accountName region : String)
    (ec2Pages : List (List (List Ec2Instance)))
    (ssmPages : List (List SsmInstanceInformation))
    (summaryPages : List (List ComplianceSummary))
    (patchStateFor : String → Option InstancePatchState) :
    fetch_account_region_instances accountName region ec2Pages ssmPages
        summaryPages patchStateFor =
      addUnmanagedInstances accountName region
        (applyPatchStates
          (summaryPages.flatten.filterMap
            (summaryRecordFor accountName region (inventoryMap ec2Pages ssmPages)))
          (procMark (summaryIds summaryPages.flatten) (inventoryMap ec2Pages ssmPages))
          patchStateFor)
        (procMark (summaryIds summaryPages.flatten) (inventoryMap ec2Pages ssmPages)) := by
  unfold fetch_account_region_instances
  show addUnmanagedInstances accountName region
      (applyPatchStates
        (processComplianceSummaries accountName region
          ([], applySsmInformation (buildInstanceMap ec2Pages) ssmPages) summaryPages).1
        (processComplianceSummaries accountName region
          ([], applySsmInformation (buildInstanceMap ec2Pages) ssmPages) summaryPages).2
        patchStateFor)
      (processComplianceSummaries accountName region
        ([], applySsmInformation (buildInstanceMap ec2Pages) ssmPages) summaryPages).2 = _
  have hm1 : applySsmInformation (buildInstanceMap ec2Pages) ssmPages =
      inventoryMap ec2Pages ssmPages := rfl
  rw [hm1, processComplianceSummaries_spec]

/-- The output's instance-id list, decomposed into the summary-derived part
and the unmanaged part. -/
theorem out_ids_eq (accountName region : String)
    (ec2Pages : List (List (List Ec2Instance)))
    (ssmPages : List (List SsmInstanceInformation))
    (summaryPages : List (List ComplianceSummary))
    (patchStateFor : String → Option InstancePatchState) :
    (fetch_account_region_instances accountName region ec2Pages ssmPages
        summaryPages patchStateFor).map (fun r => r.instanceId) =
      ((summaryPages.flatten.filter
        (fun s => (dictLookup (inventoryMap ec2Pages ssmPages) (summaryId s)).isSome)).map
          summaryId) ++
      (((procMark (summaryIds summaryPages.flatten) (inventoryMap ec2Pages ssmPages)).filter
        (fun p => !p.2.processed && !p.2.ssmManaged)).map Prod.fst) := by
  rw [fetch_account_region_instances_eq, addUnmanagedInstances_eq, List.map_append,
    applyPatchStates_map_instanceId, filterMap_summaryRecordFor_map_instanceId]
  congr 1
  rw [List.map_map]
  apply List.map_congr_left
  intro p _
  rfl

/-- Under the invariants (all entries unprocessed) and the coverage
hypothesis (every registered instance has a summary), the unmanaged part is
exactly the keys with no summary. -/
theorem procMark_filter_unmanaged (m : List (String × InstInfo))
    (sids : List String) (hproc : ∀ p ∈ m, p.2.processed = false)
    (hcov : ∀ p ∈ m, p.2.ssmManaged = true → p.1 ∈ sids) :
    ((procMark sids m).filter (fun p => !p.2.processed && !p.2.ssmManaged)).map
        Prod.fst =
      (m.map Prod.fst).filter (fun k => !(decide (k ∈ sids))) := by
  unfold procMark
  rw [List.filter_map, List.map_map]
  have hfc : m.filter ((fun p => !p.2.processed && !p.2.ssmManaged) ∘
      (fun p => if p.1 ∈ sids then (p.1, { p.2 with processed := true }) else p)) =
      m.filter (fun p => !(decide (p.1 ∈ sids))) := by
    apply List.filter_congr
    intro p hp
    simp only [Function.comp_apply]
    by_cases h : p.1 ∈ sids
    · simp [h]
    · have hm : p.2.ssmManaged = false := by
        cases hb : p.2.ssmManaged
        · rfl
        · exact absurd (hcov p hp hb) h
      simp [h, hproc p hp, hm]
  rw [hfc]
  have hfst : (m.filter (fun p => !(decide (p.1 ∈ sids)))).map
      (Prod.fst ∘ (fun (p : String × InstInfo) =>
        if p.1 ∈ sids then (p.1, { p.2 with processed := true }) else p)) =
      (m.filter (fun p => !(decide (p.1 ∈ sids)))).map Prod.fst := by
    apply List.map_congr_left
    intro p _
    simp only [Function.comp_apply]
    split <;> rfl
  rw [hfst]
  rw [List.filter_map]
  rfl

/-- The completeness permutation: with duplicate-free summary ids covering
every registered instance, the output ids are a permutation of the
inventory keys. -/
theorem reconcile_ids_perm (accountName region : String)
    (ec2Pages : List (List (List Ec2Instance)))
    (ssmPages : List (List SsmInstanceInformation))
    (summaryPages : List (List ComplianceSummary))
    (patchStateFor : String → Option InstancePatchState)
    (hnd : (summaryIds summaryPages.flatten).Nodup)
    (hcov : ∀ p ∈ inventoryMap ec2Pages ssmPages, p.2.ssmManaged = true →
      p.1 ∈ summaryIds summaryPages.flatten) :
    ((fetch_account_region_instances accountName region ec2Pages ssmPages
      summaryPages patchStateFor).map (fun r => r.instanceId)).Perm
      (dictKeys (inventoryMap ec2Pages ssmPages)) := by
  rw [out_ids_eq]
  rw [show ((procMark (summaryIds summaryPages.flatten)
      (inventoryMap ec2Pages ssmPages)).filter
      (fun p => !p.2.processed && !p.2.ssmManaged)).map Prod.fst =
      ((inventoryMap ec2Pages ssmPages).map Prod.fst).filter
        (fun k => !(decide (k ∈ summaryIds summaryPages.flatten))) from
    procMark_filter_unmanaged _ _ (inventoryMap_unprocessed ec2Pages ssmPages) hcov]
  have hks : (dictKeys (inventoryMap ec2Pages ssmPages)).Nodup :=
    inventoryMap_nodup_keys ec2Pages ssmPages
  have h1 : ((summaryPages.flatten.filter
      (fun s => (dictLookup (inventoryMap ec2Pages ssmPages) (summaryId s)).isSome)).map
        summaryId).Perm
      ((dictKeys (inventoryMap ec2Pages ssmPages)).filter
        (fun k => decide (k ∈ summaryIds summaryPages.flatten))) := by
    apply List.perm_of_nodup_nodup_toFinset_eq
    · exact hitsIds_nodup _ _ hnd
    · exact hks.filter _
    · apply Finset.ext
      intro x
      simp only [List.mem_toFinset, List.mem_filter, decide_eq_true_eq]
      rw [mem_hitsIds_iff]
      tauto
  have h2 := List.filter_append_perm
    (fun k => decide (k ∈ summaryIds summaryPages.flatten))
    (dictKeys (inventoryMap ec2Pages ssmPages))
  exact (h1.append (List.Perm.refl _)).trans h2

/-! ### Helper lemmas: batching -/

theorem lambdaPatchStateBatches_length (l : List String) :
    (lambdaPatchStateBatches l).length = (l.length + 49) / 50 := by
  induction l using lambdaPatchStateBatches.induct with
  | case1 =>
    rw [lambdaPatchStateBatches]
    rfl
  | case2 x xs ih =>
    rw [lambdaPatchStateBatches]
    rw [List.length_cons, ih, List.length_drop, List.length_cons]
    omega

theorem lambdaPatchStateBatches_flatten (l : List String) :
    (lambdaPatchStateBatches l).flatten = l := by
  induction l using lambdaPatchStateBatches.induct with
  | case1 =>
    rw [lambdaPatchStateBatches]
    rfl
  | case2 x xs ih =>
    rw [lambdaPatchStateBatches]
    rw [List.flatten_cons, ih, List.take_append_drop]

theorem lambdaPatchStateBatches_size_le (l : List String) :
    ∀ b ∈ lambdaPatchStateBatches l, b.length ≤ 50 := by
  induction l using lambdaPatchStateBatches.induct with
  | case1 =>
    intro b hb
    rw [lambdaPatchStateBatches] at hb
    cases hb
  | case2 x xs ih =>
    intro b hb
    rw [lambdaPatchStateBatches] at hb
    rcases List.mem_cons.mp hb with hb | hb
    · rw [hb, List.length_take]
      omega
    · exact ih b hb

theorem dashboardPatchStateCalls_eq (m : List (String × InstInfo)) :
    dashboardPatchStateCalls m =
      (m.filter (fun p => p.2.processed)).map (fun p => [p.1]) := by
  unfold dashboardPatchStateCalls
  have key : ∀ (acc : List (List String)),
      m.foldl (fun calls p => if p.2.processed then calls ++ [[p.1]] else calls) acc =
        acc ++ (m.filter (fun p => p.2.processed)).map (fun p => [p.1]) := by
    induction m with
    | nil => intro acc; simp
    | cons p rest ih =>
      intro acc
      rw [List.foldl_cons, List.filter_cons]
      by_cases h : p.2.processed = true
      · rw [if_pos h, if_pos h, ih, List.map_cons, List.append_assoc]
        rfl
      · rw [if_neg h, if_neg h, ih]
  exact key []

/-! ### Helper lemmas: the aggregation loop -/

theorem fetch_all_data_foldl (units : List UnitTask) (acc : AggregateResult) :
    units.foldl
      (fun acc u =>
        match u.outcome with
        | .ok r =>
          { acc with
            allInst := acc.allInst ++ r.instances
            allGrp := acc.allGrp ++ r.groups
            allPat := acc.allPat ++ r.patches
            allErr := acc.allErr ++ r.errors }
        | .error msg =>
          { acc with
            allErr := acc.allErr ++
              [unitFailureMessage u.accountName u.region msg] }) acc =
      { allInst := acc.allInst ++ units.flatMap (fun u =>
          match u.outcome with
          | .ok r => r.instances
          | .error _ => [])
        allGrp := acc.allGrp ++ units.flatMap (fun u =>
          match u.outcome with
          | .ok r => r.groups
          | .error _ => [])
        allPat := acc.allPat ++ units.flatMap (fun u =>
          match u.outcome with
          | .ok r => r.patches
          | .error _ => [])
        allErr := acc.allErr ++ units.flatMap (fun u =>
          match u.outcome with
          | .ok r => r.errors
          | .error msg => [unitFailureMessage u.accountName u.region msg]) } := by
  induction units generalizing acc with
  | nil =>
    simp
  | cons u rest ih =>
    rw [List.foldl_cons]
    rcases hu : u.outcome with msg | r
    · simp only [hu, ih]
      simp [List.flatMap_cons, hu]
    · simp only [hu, ih]
      simp [List.flatMap_cons, hu]

theorem fetch_all_data_spec (units : List UnitTask) :
    fetch_all_data units =
      { allInst := units.flatMap (fun u =>
          match u.outcome with
          | .ok r => r.instances
          | .error _ => [])
        allGrp := units.flatMap (fun u =>
          match u.outcome with
          | .ok r => r.groups
          | .error _ => [])
        allPat := units.flatMap (fun u =>
          match u.outcome with
          | .ok r => r.patches
          | .error _ => [])
        allErr := units.flatMap (fun u =>
          match u.outcome with
          | .ok r => r.errors
          | .error msg => [unitFailureMessage u.accountName u.region msg]) } := by
  unfold fetch_all_data
  rw [fetch_all_data_foldl]
  simp

/-! ### Helper lemmas: the patch-group loop -/

/-- A left fold whose step appends a per-item contribution is a `flatMap`. -/
theorem foldl_append_flatMap {α β : Type} (f : α → List β) (l : List α)
    (acc : List β) (step : List β → α → List β)
    (hstep : ∀ acc x, step acc x = acc ++ f x) :
    l.foldl step acc = acc ++ l.flatMap f := by
  induction l generalizing acc with
  | nil => simp
  | cons x xs ih =>
    rw [List.foldl_cons, hstep, ih, List.flatMap_cons, List.append_assoc]

theorem fetch_patch_groups_eq_flatMap (accountName region : String)
    (groupPages : List (List PatchGroupMapping))
    (groupStateFor : String → Option PatchGroupState) :
    fetch_patch_groups accountName region groupPages groupStateFor =
      groupPages.flatten.flatMap
        (groupRecordsFor accountName region groupStateFor) := by
  unfold fetch_patch_groups
  rw [← List.foldl_flatten]
  refine Eq.trans (foldl_append_flatMap
    (groupRecordsFor accountName region groupStateFor)
    groupPages.flatten [] _ ?_) (List.nil_append _)
  intro acc mp
  rcases hf : groupStateFor (mp.patchGroup.getD "N/A") with _ | resp
  · simp [groupRecordsFor, hf]
  · simp only [groupRecordsFor, hf]
    split
    · rfl
    · simp

/-! ### Helper lemmas: the distinct-by-patch-id reduction -/

theorem unique_patches_length_le (l : List CatalogPatchRecord) :
    (unique_patches l).length ≤ l.length := by
  induction l using unique_patches.induct with
  | case1 =>
    rw [unique_patches]
  | case2 p ps ih =>
    rw [unique_patches]
    rw [List.length_cons, List.length_cons]
    exact Nat.succ_le_succ (ih.trans (List.length_filter_le _ _))

theorem unique_patches_countP (l : List CatalogPatchRecord) (pid : String) :
    (unique_patches l).countP (fun p => p.patchId == pid) =
      min 1 (l.countP (fun p => p.patchId == pid)) := by
  induction l using unique_patches.induct with
  | case1 =>
    rw [unique_patches]
    simp
  | case2 p ps ih =>
    rw [unique_patches]
    rw [List.countP_cons, List.countP_cons, ih, List.countP_filter]
    by_cases h : (p.patchId == pid) = true
    · have hpe : p.patchId = pid := by simpa [beq_iff_eq] using h
      have hzero : ps.countP
          (fun a => (a.patchId == pid) && !(a.patchId == p.patchId)) = 0 := by
        rw [List.countP_eq_zero]
        intro a _
        rw [hpe]
        cases hb : (a.patchId == pid) <;> simp [hb]
      rw [hzero]
      simp [h]
    · have hne : ∀ a : CatalogPatchRecord, (a.patchId == pid) = true →
          (a.patchId == p.patchId) = false := by
        intro a ha
        have h1 : a.patchId = pid := by simpa [beq_iff_eq] using ha
        have h2 : ¬ p.patchId = pid := by simpa [beq_iff_eq] using h
        rw [h1]
        cases hb : (pid == p.patchId)
        · rfl
        · exfalso
          exact h2 ((by simpa [beq_iff_eq] using hb : pid = p.patchId)).symm
      have hsame : ps.countP
          (fun a => (a.patchId == pid) && !(a.patchId == p.patchId)) =
          ps.countP (fun a => a.patchId == pid) := by
        apply List.countP_congr
        intro a _
        constructor
        · intro ha
          exact ((Bool.and_eq_true _ _).mp ha).1
        · intro ha
          rw [ha, hne a ha]
          rfl
      simp only [if_neg h, Nat.add_zero]
      rw [hsame]

/-! ### Helper lemmas: inventory collectors -/

theorem flatMap_singleton_eq_map {α β : Type} (f : α → β) (l : List α) :
    l.flatMap (fun a => [f a]) = l.map f := by
  induction l with
  | nil => rfl
  | cons x xs ih => simp [ih]

theorem get_ec2_instances_eq (pages : List (List (List Ec2Instance))) :
    get_ec2_instances pages =
      (pages.flatten.flatten).map (fun i => i.instanceId) := by
  unfold get_ec2_instances
  rw [← List.foldl_flatten, ← List.foldl_flatten]
  refine Eq.trans (foldl_append_flatMap (fun i => [i.instanceId])
    pages.flatten.flatten [] _ (fun acc x => rfl)) ?_
  rw [List.nil_append, flatMap_singleton_eq_map]

theorem mem_dictKeys_dictInsert_self (m : List (String × InstInfo)) (k : String)
    (v : InstInfo) : k ∈ dictKeys (dictInsert m k v) := by
  unfold dictKeys
  rw [dictInsert_map_fst]
  by_cases h : dictContains m k = true
  · rw [if_pos h]
    exact (dictContains_iff m k).mp h
  · rw [if_neg h]
    exact List.mem_append.mpr (Or.inr (List.mem_singleton_self k))

theorem mem_dictKeys_dictInsert_mono (m : List (String × InstInfo)) (k : String)
    (v : InstInfo) (j : String) (hj : j ∈ dictKeys m) :
    j ∈ dictKeys (dictInsert m k v) := by
  unfold dictKeys at hj ⊢
  rw [dictInsert_map_fst]
  by_cases h : dictContains m k = true
  · rw [if_pos h]
    exact hj
  · rw [if_neg h]
    exact List.mem_append.mpr (Or.inl hj)

theorem foldl_dictInsert_keys_mono (l : List Ec2Instance)
    (m : List (String × InstInfo)) (j : String) (hj : j ∈ dictKeys m) :
    j ∈ dictKeys (l.foldl
      (fun m inst => dictInsert m inst.instanceId (initialInstInfo inst)) m) := by
  induction l generalizing m with
  | nil => exact hj
  | cons x xs ih =>
    exact ih _ (mem_dictKeys_dictInsert_mono m x.instanceId _ j hj)

theorem mem_keys_foldl_dictInsert (l : List Ec2Instance)
    (m : List (String × InstInfo)) (inst : Ec2Instance) (h : inst ∈ l) :
    inst.instanceId ∈ dictKeys (l.foldl
      (fun m inst => dictInsert m inst.instanceId (initialInstInfo inst)) m) := by
  induction l generalizing m with
  | nil => cases h
  | cons x xs ih =>
    rcases List.mem_cons.mp h with heq | htail
    · rw [List.foldl_cons]
      exact foldl_dictInsert_keys_mono xs _ inst.instanceId
        (heq ▸ mem_dictKeys_dictInsert_self m x.instanceId (initialInstInfo x))
    · exact ih _ htail

theorem mem_buildInstanceMap_keys (pages : List (List (List Ec2Instance)))
    (inst : Ec2Instance) (h : inst ∈ pages.flatten.flatten) :
    inst.instanceId ∈ dictKeys (buildInstanceMap pages) := by
  rw [buildInstanceMap_eq_flat]
  exact mem_keys_foldl_dictInsert _ [] inst h

/-! ### Helper lemmas: clamped aggregation stays non-negative -/

theorem accumulatePatchState_nonneg (s : LambdaPatchSummary)
    (st : InstancePatchState) (hs : lambdaSummaryCountsNonneg s) :
    lambdaSummaryCountsNonneg (accumulatePatchState s st) := by
  obtain ⟨h1, h2, h3, h4, h5, h6⟩ := hs
  unfold accumulatePatchState lambdaSummaryCountsNonneg
  dsimp only
  split <;>
    exact ⟨add_nonneg h1 (le_max_left 0 _), add_nonneg h2 (le_max_left 0 _),
      add_nonneg h3 (le_max_left 0 _), add_nonneg h4 (le_max_left 0 _),
      add_nonneg h5 (le_max_left 0 _), add_nonneg h6 (le_max_left 0 _)⟩

theorem foldl_accumulatePatchState_nonneg (states : List InstancePatchState)
    (s : LambdaPatchSummary) (hs : lambdaSummaryCountsNonneg s) :
    lambdaSummaryCountsNonneg (states.foldl accumulatePatchState s) := by
  induction states generalizing s with
  | nil => exact hs
  | cons st rest ih => exact ih _ (accumulatePatchState_nonneg s st hs)

theorem foldl_batches_patchSummary_nonneg
    (fetchBatch : List String → Option (List InstancePatchState))
    (batches : List (List String)) (s : LambdaPatchSummary)
    (hs : lambdaSummaryCountsNonneg s) :
    lambdaSummaryCountsNonneg (batches.foldl
      (fun s batch =>
        match fetchBatch batch with
        | none => s
        | some states => states.foldl accumulatePatchState s) s) := by
  induction batches generalizing s with
  | nil => exact hs
  | cons b rest ih =>
    rw [List.foldl_cons]
    apply ih
    rcases fetchBatch b with _ | states
    · exact hs
    · exact foldl_accumulatePatchState_nonneg states s hs

theorem emptyLambdaSummary_nonneg (n : Nat) :
    lambdaSummaryCountsNonneg (emptyLambdaSummary n) :=
  ⟨le_refl 0, le_refl 0, le_refl 0, le_refl 0, le_refl 0, le_refl 0⟩

theorem get_patch_compliance_data_nonneg (managedInstances : List String)
    (fetchBatch : List String → Option (List InstancePatchState)) :
    lambdaSummaryCountsNonneg
      (get_patch_compliance_data managedInstances fetchBatch) := by
  unfold get_patch_compliance_data
  split
  · exact emptyLambdaSummary_nonneg 0
  · exact foldl_batches_patchSummary_nonneg fetchBatch _ _
      (emptyLambdaSummary_nonneg managedInstances.length)

theorem accumulateNoncomplianceCounts_nonneg (c : NoncomplianceCounts)
    (st : InstancePatchState) (hc : noncomplianceCountsNonneg c) :
    noncomplianceCountsNonneg (accumulateNoncomplianceCounts c st) := by
  obtain ⟨h1, h2, h3, h4, h5, h6⟩ := hc
  exact ⟨add_nonneg h1 (le_max_left 0 _), add_nonneg h2 (le_max_left 0 _),
    add_nonneg h3 (le_max_left 0 _), add_nonneg h4 (le_max_left 0 _),
    add_nonneg h5 (le_max_left 0 _), add_nonneg h6 (le_max_left 0 _)⟩

theorem foldl_accumulateNoncomplianceCounts_nonneg
    (states : List InstancePatchState) (c : NoncomplianceCounts)
    (hc : noncomplianceCountsNonneg c) :
    noncomplianceCountsNonneg (states.foldl accumulateNoncomplianceCounts c) := by
  induction states generalizing c with
  | nil => exact hc
  | cons st rest ih => exact ih _ (accumulateNoncomplianceCounts_nonneg c st hc)

theorem get_detailed_noncompliance_counts_nonneg (managedInstances : List String)
    (fetchBatch : List String → Option (List InstancePatchState)) :
    noncomplianceCountsNonneg
      (get_detailed_noncompliance_counts managedInstances fetchBatch) := by
  have hzero : noncomplianceCountsNonneg ⟨0, 0, 0, 0, 0, 0⟩ :=
    ⟨le_refl 0, le_refl 0, le_refl 0, le_refl 0, le_refl 0, le_refl 0⟩
  have key : ∀ (batches : List (List String)) (c : NoncomplianceCounts),
      noncomplianceCountsNonneg c →
      noncomplianceCountsNonneg (batches.foldl
        (fun c batch =>
          match fetchBatch batch with
          | none => c
          | some states => states.foldl accumulateNoncomplianceCounts c) c) := by
    intro batches
    induction batches with
    | nil => exact fun c hc => hc
    | cons b rest ih =>
      intro c hc
      rw [List.foldl_cons]
      apply ih
      rcases fetchBatch b with _ | states
      · exact hc
      · exact foldl_accumulateNoncomplianceCounts_nonneg states c hc
  unfold get_detailed_noncompliance_counts
  split
  · exact hzero
  · exact key _ _ hzero

end PatchCompliance

open PatchCompliance

/-- C2: whenever `failed_count > 0` the classification is
`NON_COMPLIANT_FAILED` regardless of `missing_count`; otherwise
`missing_count > 0` gives `NON_COMPLIANT_MISSING`; otherwise `COMPLIANT`.
Moreover the Lambda reporter's coarser compliant test agrees: it counts an
instance compliant exactly when the classification rule says `COMPLIANT`. -/
theorem classification_priority_rule (failed missing : Int)
    (st : InstancePatchState) :
    (0 < failed → classifyComplianceStatus failed missing = "NON_COMPLIANT_FAILED")
    ∧ (failed ≤ 0 → 0 < missing →
        classifyComplianceStatus failed missing = "NON_COMPLIANT_MISSING")
    ∧ (failed ≤ 0 → missing ≤ 0 →
        classifyComplianceStatus failed missing = "COMPLIANT")
    ∧ (st.failedCount.getD 0 = failed → st.missingCount.getD 0 = missing →
        (lambdaInstanceCompliant st = true ↔
          classifyComplianceStatus failed missing = "COMPLIANT")) := by
  refine ⟨?_, ?_, ?_, ?_⟩
  · intro h
    simp [classifyComplianceStatus, h]
  · intro hf hm
    simp [classifyComplianceStatus, hm, not_lt.mpr hf]
  · intro hf hm
    simp [classifyComplianceStatus, not_lt.mpr hf, not_lt.mpr hm]
  · intro hf hm
    constructor
    · intro h
      simp only [lambdaInstanceCompliant, Bool.and_eq_true, beq_iff_eq, hf, hm] at h
      have hf' : failed ≤ 0 := by
        by_contra hc
        push_neg at hc
        omega
      have hm' : missing ≤ 0 := by
        by_contra hc
        push_neg at hc
        omega
      simp [classifyComplianceStatus, not_lt.mpr hf', not_lt.mpr hm']
    · intro h
      by_cases hfp : 0 < failed
      · simp [classifyComplianceStatus, hfp] at h
      · by_cases hmp : 0 < missing
        · simp [classifyComplianceStatus, hmp, not_lt.mpr (not_lt.mp hfp)] at h
        · simp only [lambdaInstanceCompliant, Bool.and_eq_true, beq_iff_eq, hf, hm]
          omega

/-- Concrete instantiation of the classification-priority theorem: with
`failed = 1, missing = 5` the rule yields `NON_COMPLIANT_FAILED`; with
`failed = 0, missing = 3` it yields `NON_COMPLIANT_MISSING`; with both zero
it yields `COMPLIANT`. -/
theorem classification_priority_rule_witness :
    classifyComplianceStatus 1 5 = "NON_COMPLIANT_FAILED"
    ∧ classifyComplianceStatus 0 3 = "NON_COMPLIANT_MISSING"
    ∧ classifyComplianceStatus 0 0 = "COMPLIANT" :=
  ⟨(classification_priority_rule 1 5
      ⟨none, none, none, none, none, none, none, none⟩).1 (by decide),
   ((classification_priority_rule 0 3
      ⟨none, none, none, none, none, none, none, none⟩).2.1 (by decide) (by decide)),
   ((classification_priority_rule 0 0
      ⟨none, none, none, none, none, none, none, none⟩).2.2.1 (by decide) (by decide))⟩

/-- C1 (counterexample): the completeness claim fails on the code.  One
inventory instance (`i-aaa`) that is SSM-registered but has no
compliance-summary record produces an empty output: the record count is 0
while the inventory count is 1, and the discovered instance is missing. -/
theorem reconciler_completeness_counterexample :
    fetch_account_region_instances "acct" "us-east-1"
      [[[⟨"i-aaa", [], none, "running", none⟩]]]
      [[⟨"i-aaa", some "Online"⟩]] [] (fun _ => none) = []
    ∧ (inventoryMap [[[⟨"i-aaa", [], none, "running", none⟩]]]
        [[⟨"i-aaa", some "Online"⟩]]).length = 1 := ⟨rfl, rfl⟩

/-- C1 (amended): the per-unit pipeline emits exactly one compliance record
per inventory instance — equal counts, no instance missing, no duplicated
identifier — provided the compliance-summary listing contains no duplicate
resource ids and covers every SSM-registered inventory instance; an
SSM-registered instance with no summary record is otherwise dropped. -/
theorem reconciler_completeness_amended (accountName region : String)
    (ec2Pages : List (List (List Ec2Instance)))
    (ssmPages : List (List SsmInstanceInformation))
    (summaryPages : List (List ComplianceSummary))
    (patchStateFor : String → Option InstancePatchState)
    (hnd : (summaryIds summaryPages.flatten).Nodup)
    (hcov : ∀ p ∈ inventoryMap ec2Pages ssmPages, p.2.ssmManaged = true →
      p.1 ∈ summaryIds summaryPages.flatten) :
    (fetch_account_region_instances accountName region ec2Pages ssmPages
        summaryPages patchStateFor).length =
      (inventoryMap ec2Pages ssmPages).length
    ∧ (∀ p ∈ inventoryMap ec2Pages ssmPages,
        ∃ r ∈ fetch_account_region_instances accountName region ec2Pages ssmPages
          summaryPages patchStateFor, r.instanceId = p.1)
    ∧ ((fetch_account_region_instances accountName region ec2Pages ssmPages
        summaryPages patchStateFor).map (fun r => r.instanceId)).Nodup := by
  have hperm := reconcile_ids_perm accountName region ec2Pages ssmPages
    summaryPages patchStateFor hnd hcov
  refine ⟨?_, ?_, ?_⟩
  · have hlen := hperm.length_eq
    rw [List.length_map] at hlen
    rw [hlen]
    unfold dictKeys
    rw [List.length_map]
  · intro p hp
    have hkey : p.1 ∈ dictKeys (inventoryMap ec2Pages ssmPages) :=
      List.mem_map.mpr ⟨p, hp, rfl⟩
    have hout : p.1 ∈ (fetch_account_region_instances accountName region ec2Pages
        ssmPages summaryPages patchStateFor).map (fun r => r.instanceId) :=
      hperm.mem_iff.mpr hkey
    obtain ⟨r, hr, hid⟩ := List.mem_map.mp hout
    exact ⟨r, hr, hid⟩
  · rw [hperm.nodup_iff]
    exact inventoryMap_nodup_keys ec2Pages ssmPages

/-- Concrete instantiation of the amended completeness theorem: two
inventory instances, one registered and covered by one summary record, give
an output of the same size as the inventory with duplicate-free ids. -/
theorem reconciler_completeness_amended_witness :
    (fetch_account_region_instances "acct" "us-east-1"
        [[[⟨"i-aaa", [("Name", "web")], none, "running", none⟩],
          [⟨"i-bbb", [], some "windows", "stopped", none⟩]]]
        [[⟨"i-aaa", some "Online"⟩]]
        [[⟨some "i-aaa", some "COMPLIANT"⟩]]
        (fun _ => some ⟨some 10, some 0, some 0, some 1, some 0, none, none, none⟩)).length =
      (inventoryMap
        [[[⟨"i-aaa", [("Name", "web")], none, "running", none⟩],
          [⟨"i-bbb", [], some "windows", "stopped", none⟩]]]
        [[⟨"i-aaa", some "Online"⟩]]).length
    ∧ ((fetch_account_region_instances "acct" "us-east-1"
        [[[⟨"i-aaa", [("Name", "web")], none, "running", none⟩],
          [⟨"i-bbb", [], some "windows", "stopped", none⟩]]]
        [[⟨"i-aaa", some "Online"⟩]]
        [[⟨some "i-aaa", some "COMPLIANT"⟩]]
        (fun _ => some ⟨some 10, some 0, some 0, some 1, some 0, none, none, none⟩)).map
          (fun r => r.instanceId)).Nodup :=
  ⟨(reconciler_completeness_amended "acct" "us-east-1"
      [[[⟨"i-aaa", [("Name", "web")], none, "running", none⟩],
        [⟨"i-bbb", [], some "windows", "stopped", none⟩]]]
      [[⟨"i-aaa", some "Online"⟩]]
      [[⟨some "i-aaa", some "COMPLIANT"⟩]]
      (fun _ => some ⟨some 10, some 0, some 0, some 1, some 0, none, none, none⟩)
      (by decide) (by decide)).1,
   (reconciler_completeness_amended "acct" "us-east-1"
      [[[⟨"i-aaa", [("Name", "web")], none, "running", none⟩],
        [⟨"i-bbb", [], some "windows", "stopped", none⟩]]]
      [[⟨"i-aaa", some "Online"⟩]]
      [[⟨some "i-aaa", some "COMPLIANT"⟩]]
      (fun _ => some ⟨some 10, some 0, some 0, some 1, some 0, none, none, none⟩)
      (by decide) (by decide)).2.2⟩

/-- C3 (counterexample): an inventory instance absent from the registry but
carrying a stale compliance-summary record is classified with the summary's
status (`COMPLIANT`), not `UNMANAGED`, and its stale patch-state counts
(missing = 7) are reported instead of zero. -/
theorem conservative_fallback_counterexample :
    (fetch_account_region_instances "acct" "us-east-1"
        [[[⟨"i-aaa", [], none, "running", none⟩]]] []
        [[⟨some "i-aaa", some "COMPLIANT"⟩]]
        (fun _ => some ⟨some 1, some 7, some 0, some 0, some 0, none, none, none⟩)).map
      (fun r => r.complianceStatus) = ["COMPLIANT"]
    ∧ (fetch_account_region_instances "acct" "us-east-1"
        [[[⟨"i-aaa", [], none, "running", none⟩]]] []
        [[⟨some "i-aaa", some "COMPLIANT"⟩]]
        (fun _ => some ⟨some 1, some 7, some 0, some 0, some 0, none, none, none⟩)).map
      (fun r => r.missingPatches) = [some 7] := ⟨rfl, rfl⟩

/-- C3 (amended): an inventory instance absent from the registry *and with no
compliance-summary record* is always emitted as exactly one `UNMANAGED`
record with all patch counts zero, regardless of any stale patch-state
record (`patchStateFor` is arbitrary); a stale compliance-summary record
instead takes precedence and carries its own status. -/
theorem conservative_fallback_amended (accountName region : String)
    (ec2Pages : List (List (List Ec2Instance)))
    (ssmPages : List (List SsmInstanceInformation))
    (summaryPages : List (List ComplianceSummary))
    (patchStateFor : String → Option InstancePatchState)
    (iid : String) (info : InstInfo)
    (hlook : dictLookup (inventoryMap ec2Pages ssmPages) iid = some info)
    (hunmanaged : info.ssmManaged = false)
    (hnosum : iid ∉ summaryIds summaryPages.flatten) :
    (∃ r ∈ fetch_account_region_instances accountName region ec2Pages ssmPages
        summaryPages patchStateFor, r.instanceId = iid)
    ∧ ∀ r ∈ fetch_account_region_instances accountName region ec2Pages ssmPages
        summaryPages patchStateFor, r.instanceId = iid →
        r.complianceStatus = "UNMANAGED" ∧ r.managed = false ∧
        r.installedPatches = some 0 ∧ r.missingPatches = some 0 ∧
        r.failedPatches = some 0 ∧ r.unspecifiedPatches = some 0 := by
  rw [fetch_account_region_instances_eq, addUnmanagedInstances_eq]
  have hmem1 : (iid, info) ∈ inventoryMap ec2Pages ssmPages :=
    mem_of_dictLookup_eq_some hlook
  have hproc : info.processed = false :=
    inventoryMap_unprocessed ec2Pages ssmPages (iid, info) hmem1
  constructor
  · have hmem2 : (iid, info) ∈ procMark (summaryIds summaryPages.flatten)
        (inventoryMap ec2Pages ssmPages) := by
      unfold procMark
      refine List.mem_map.mpr ⟨(iid, info), hmem1, ?_⟩
      rw [if_neg hnosum]
    have hcond : (!(iid, info).2.processed && !(iid, info).2.ssmManaged) = true := by
      simp [hproc, hunmanaged]
    have hfil : (iid, info) ∈ (procMark (summaryIds summaryPages.flatten)
        (inventoryMap ec2Pages ssmPages)).filter
        (fun p => !p.2.processed && !p.2.ssmManaged) :=
      List.mem_filter.mpr ⟨hmem2, hcond⟩
    refine ⟨unmanagedRecord accountName region iid info, ?_, rfl⟩
    exact List.mem_append.mpr (Or.inr (List.mem_map.mpr ⟨(iid, info), hfil, rfl⟩))
  · intro r hr hid
    rcases List.mem_append.mp hr with hA | hB
    · exfalso
      have hidmem : r.instanceId ∈ (applyPatchStates
          (summaryPages.flatten.filterMap
            (summaryRecordFor accountName region (inventoryMap ec2Pages ssmPages)))
          (procMark (summaryIds summaryPages.flatten) (inventoryMap ec2Pages ssmPages))
          patchStateFor).map (fun r => r.instanceId) :=
        List.mem_map.mpr ⟨r, hA, rfl⟩
      rw [applyPatchStates_map_instanceId,
        filterMap_summaryRecordFor_map_instanceId] at hidmem
      have := (mem_hitsIds_iff _ _ _).mp hidmem
      rw [hid] at this
      exact hnosum this.1
    · obtain ⟨p, _, hpr⟩ := List.mem_map.mp hB
      rw [← hpr]
      exact ⟨rfl, rfl, rfl, rfl, rfl, rfl⟩

/-- Concrete instantiation of the amended conservative-fallback theorem: an
unregistered instance with no summary record yields the `UNMANAGED` record
with zero counts even though a stale patch-state record exists; the output
record is exactly `unmanagedRecord` for that instance. -/
theorem conservative_fallback_amended_witness :
    (unmanagedRecord "acct" "us-east-1" "i-aaa"
        ⟨"i-aaa", "linux", "stopped", none, false, "Unknown", false⟩).complianceStatus =
      "UNMANAGED"
    ∧ (unmanagedRecord "acct" "us-east-1" "i-aaa"
        ⟨"i-aaa", "linux", "stopped", none, false, "Unknown", false⟩).managed = false
    ∧ (unmanagedRecord "acct" "us-east-1" "i-aaa"
        ⟨"i-aaa", "linux", "stopped", none, false, "Unknown", false⟩).installedPatches =
      some 0
    ∧ (unmanagedRecord "acct" "us-east-1" "i-aaa"
        ⟨"i-aaa", "linux", "stopped", none, false, "Unknown", false⟩).missingPatches =
      some 0
    ∧ (unmanagedRecord "acct" "us-east-1" "i-aaa"
        ⟨"i-aaa", "linux", "stopped", none, false, "Unknown", false⟩).failedPatches =
      some 0
    ∧ (unmanagedRecord "acct" "us-east-1" "i-aaa"
        ⟨"i-aaa", "linux", "stopped", none, false, "Unknown", false⟩).unspecifiedPatches =
      some 0 :=
  (conservative_fallback_amended "acct" "us-east-1"
    [[[⟨"i-aaa", [], none, "stopped", none⟩]]] [] []
    (fun _ => some ⟨some 1, some 7, some 0, some 0, some 0, none, none, none⟩)
    "i-aaa" ⟨"i-aaa", "linux", "stopped", none, false, "Unknown", false⟩
    (by decide) (by decide) (by decide)).2
    (unmanagedRecord "acct" "us-east-1" "i-aaa"
      ⟨"i-aaa", "linux", "stopped", none, false, "Unknown", false⟩)
    (by decide) (by decide)

/-- C4 (counterexample): an instance present in both the inventory and the
registry but with no patch-state record (the lookup function returns `none`
everywhere) is not emitted at all — the output is empty, instead of the
claimed single `UNMANAGED` record. -/
theorem registry_without_summary_counterexample :
    fetch_account_region_instances "acct" "eu-west-1"
      [[[⟨"i-aaa", [], none, "running", none⟩]]]
      [[⟨"i-aaa", some "Online"⟩]] [] (fun _ => none) = []
    ∧ (dictLookup (inventoryMap [[[⟨"i-aaa", [], none, "running", none⟩]]]
        [[⟨"i-aaa", some "Online"⟩]]) "i-aaa").map (fun i => i.ssmManaged) =
      some true := ⟨rfl, rfl⟩

/-- C4 (amended): an inventory instance that is SSM-registered but has no
compliance-summary record is omitted from the output entirely — no record of
any classification is emitted for it, whatever the patch-state lookup
returns.  (The `UNMANAGED` fallback only fires for *unregistered*
instances.) -/
theorem registry_without_summary_omitted (accountName region : String)
    (ec2Pages : List (List (List Ec2Instance)))
    (ssmPages : List (List SsmInstanceInformation))
    (summaryPages : List (List ComplianceSummary))
    (patchStateFor : String → Option InstancePatchState)
    (iid : String) (info : InstInfo)
    (hlook : dictLookup (inventoryMap ec2Pages ssmPages) iid = some info)
    (hmanaged : info.ssmManaged = true)
    (hnosum : iid ∉ summaryIds summaryPages.flatten) :
    ∀ r ∈ fetch_account_region_instances accountName region ec2Pages ssmPages
      summaryPages patchStateFor, r.instanceId ≠ iid := by
  rw [fetch_account_region_instances_eq, addUnmanagedInstances_eq]
  intro r hr hid
  rcases List.mem_append.mp hr with hA | hB
  · have hidmem : r.instanceId ∈ (applyPatchStates
        (summaryPages.flatten.filterMap
          (summaryRecordFor accountName region (inventoryMap ec2Pages ssmPages)))
        (procMark (summaryIds summaryPages.flatten) (inventoryMap ec2Pages ssmPages))
        patchStateFor).map (fun r => r.instanceId) :=
      List.mem_map.mpr ⟨r, hA, rfl⟩
    rw [applyPatchStates_map_instanceId,
      filterMap_summaryRecordFor_map_instanceId] at hidmem
    have := (mem_hitsIds_iff _ _ _).mp hidmem
    rw [hid] at this
    exact hnosum this.1
  · obtain ⟨p, hpfil, hpr⟩ := List.mem_map.mp hB
    have hp1 : p.1 = iid := by
      rw [← hid, ← hpr]
      rfl
    obtain ⟨hpm2, hpcond⟩ := List.mem_filter.mp hpfil
    obtain ⟨q, hq, hgq⟩ := List.mem_map.mp hpm2
    have hq1 : q.1 = p.1 := by
      rw [← hgq]
      split <;> rfl
    have hqiid : q.1 = iid := hq1.trans hp1
    have hqeq : q = (iid, q.2) := by
      cases q
      simp_all
    have hlookq : dictLookup (inventoryMap ec2Pages ssmPages) iid = some q.2 :=
      dictLookup_eq_of_mem_nodup (inventoryMap_nodup_keys ec2Pages ssmPages)
        (hqeq ▸ hq)
    have hq2info : q.2 = info := by
      rw [hlookq] at hlook
      exact Option.some.inj hlook
    have hgq_id : p = q := by
      rw [← hgq]
      rw [if_neg (by rw [hqiid]; exact hnosum)]
    have hpm : p.2.ssmManaged = true := by
      rw [hgq_id, hq2info]
      exact hmanaged
    rw [hpm] at hpcond
    simp at hpcond

/-- Concrete instantiation of the amended omission theorem: with `i-aaa` in
both inventory and registry but absent from the summaries, the single output
record (the sibling `i-bbb`'s `UNMANAGED` row) does not carry id `i-aaa`. -/
theorem registry_without_summary_omitted_witness :
    (unmanagedRecord "acct" "eu-west-1" "i-bbb"
      ⟨"i-bbb", "linux", "running", none, false, "Unknown", false⟩).instanceId ≠
      "i-aaa" :=
  registry_without_summary_omitted "acct" "eu-west-1"
    [[[⟨"i-aaa", [], none, "running", none⟩, ⟨"i-bbb", [], none, "running", none⟩]]]
    [[⟨"i-aaa", some "Online"⟩]] [] (fun _ => none)
    "i-aaa" ⟨"i-aaa", "linux", "running", none, true, "Online", false⟩
    (by decide) (by decide) (by decide)
    (unmanagedRecord "acct" "eu-west-1" "i-bbb"
      ⟨"i-bbb", "linux", "running", none, false, "Unknown", false⟩)
    (by decide)

/-- C5 (counterexample): for 250 identifiers the Lambda's Patch State
Collector issues 5 batched calls (batch size 50), not the claimed
`ceil(250/100) = 3`; and the dashboard variant issues one single-identifier
call per processed instance (here two calls `[["i-a"], ["i-b"]]` for two
instances), so per-instance calls do occur. -/
theorem patch_state_batching_counterexample :
    (lambdaPatchStateBatches (List.replicate 250 "i")).length = 5
    ∧ (lambdaPatchStateBatches (List.replicate 250 "i")).length ≠ 3
    ∧ dashboardPatchStateCalls
        [("i-a", ⟨"a", "linux", "running", none, true, "Online", true⟩),
         ("i-b", ⟨"b", "linux", "running", none, true, "Online", true⟩)] =
      [["i-a"], ["i-b"]] := by
  have h := lambdaPatchStateBatches_length (List.replicate 250 "i")
  rw [List.length_replicate] at h
  norm_num at h
  refine ⟨h, by rw [h]; norm_num, ?_⟩
  rw [dashboardPatchStateCalls_eq]
  rfl

/-- C5 (amended): the Lambda's Patch State Collector batches at most 50
identifiers per call, issues exactly `ceil(n/50)` calls, and covers every
identifier; the dashboard variant instead issues exactly one
single-identifier call per processed instance. -/
theorem patch_state_batching_amended (ids : List String)
    (m : List (String × InstInfo)) :
    (∀ b ∈ lambdaPatchStateBatches ids, b.length ≤ 50)
    ∧ (lambdaPatchStateBatches ids).length = (ids.length + 49) / 50
    ∧ (lambdaPatchStateBatches ids).flatten = ids
    ∧ (∀ c ∈ dashboardPatchStateCalls m, c.length = 1)
    ∧ (dashboardPatchStateCalls m).length =
        (m.filter (fun p => p.2.processed)).length := by
  refine ⟨lambdaPatchStateBatches_size_le ids, lambdaPatchStateBatches_length ids,
    lambdaPatchStateBatches_flatten ids, ?_, ?_⟩
  · intro c hc
    rw [dashboardPatchStateCalls_eq] at hc
    obtain ⟨p, _, hpc⟩ := List.mem_map.mp hc
    rw [← hpc]
    rfl
  · rw [dashboardPatchStateCalls_eq, List.length_map]

/-- Concrete instantiation of the amended batching theorem: 250 identifiers
give `(250 + 49) / 50 = 5` Lambda calls covering all identifiers, and a
two-entry processed map gives two dashboard calls. -/
theorem patch_state_batching_amended_witness :
    (lambdaPatchStateBatches (List.replicate 250 "i")).length =
      ((List.replicate 250 "i").length + 49) / 50
    ∧ (lambdaPatchStateBatches (List.replicate 250 "i")).flatten =
        List.replicate 250 "i"
    ∧ (dashboardPatchStateCalls
        [("i-a", ⟨"a", "linux", "running", none, true, "Online", true⟩),
         ("i-b", ⟨"b", "linux", "running", none, true, "Online", true⟩)]).length =
      ([("i-a", (⟨"a", "linux", "running", none, true, "Online", true⟩ : InstInfo)),
        ("i-b", ⟨"b", "linux", "running", none, true, "Online", true⟩)].filter
          (fun p => p.2.processed)).length :=
  ⟨(patch_state_batching_amended (List.replicate 250 "i") []).2.1,
   (patch_state_batching_amended (List.replicate 250 "i") []).2.2.1,
   (patch_state_batching_amended []
     [("i-a", ⟨"a", "linux", "running", none, true, "Online", true⟩),
      ("i-b", ⟨"b", "linux", "running", none, true, "Online", true⟩)]).2.2.2.2⟩


/-- C6: the aggregator isolates unit failures.  The aggregate instance count
is the sum of the per-unit counts (failed units contributing zero, i.e. the
sum over successful units); the error log gains exactly one entry per unit
outcome (the unit's own warnings on success, one tagged string on an
exception); and every failing unit's tagged message `"❌ account/region: ..."`
appears in the log. -/
theorem aggregator_unit_isolation (units : List UnitTask) :
    (fetch_all_data units).allInst.length = (units.map unitInstanceCount).sum
    ∧ (fetch_all_data units).allErr.length = (units.map unitErrorCount).sum
    ∧ ∀ u ∈ units, ∀ msg, u.outcome = .error msg →
        unitFailureMessage u.accountName u.region msg ∈
          (fetch_all_data units).allErr := by
  rw [fetch_all_data_spec]
  refine ⟨?_, ?_, ?_⟩
  · rw [List.length_flatMap]
    congr 1
    apply List.map_congr_left
    intro u _
    rcases hu : u.outcome with msg | r <;> simp [unitInstanceCount, hu]
  · rw [List.length_flatMap]
    congr 1
    apply List.map_congr_left
    intro u _
    rcases hu : u.outcome with msg | r <;> simp [unitErrorCount, hu]
  · intro u hu msg hmsg
    apply List.mem_flatMap.mpr
    refine ⟨u, hu, ?_⟩
    rw [hmsg]
    exact List.mem_singleton_self _

/-- Concrete instantiation of the unit-isolation theorem: one successful
unit with one instance record and one warning, plus one unit whose task
raised `AccessDenied`; counts add up and the tagged failure string is in the
log. -/
theorem aggregator_unit_isolation_witness :
    (fetch_all_data
      [⟨"acctA", "us-east-1", .ok ⟨[unmanagedRecord "acctA" "us-east-1" "i-1"
          ⟨"i-1", "linux", "running", none, false, "Unknown", false⟩], [], [],
          ["⚠️ acctA/us-east-1: SSM instances - x"]⟩⟩,
       ⟨"acctB", "us-west-2", .error "AccessDenied"⟩]).allInst.length =
      ([⟨"acctA", "us-east-1", .ok ⟨[unmanagedRecord "acctA" "us-east-1" "i-1"
          ⟨"i-1", "linux", "running", none, false, "Unknown", false⟩], [], [],
          ["⚠️ acctA/us-east-1: SSM instances - x"]⟩⟩,
        (⟨"acctB", "us-west-2", .error "AccessDenied"⟩ : UnitTask)].map
          unitInstanceCount).sum
    ∧ unitFailureMessage "acctB" "us-west-2" "AccessDenied" ∈
        (fetch_all_data
          [⟨"acctA", "us-east-1", .ok ⟨[unmanagedRecord "acctA" "us-east-1" "i-1"
              ⟨"i-1", "linux", "running", none, false, "Unknown", false⟩], [], [],
              ["⚠️ acctA/us-east-1: SSM instances - x"]⟩⟩,
           ⟨"acctB", "us-west-2", .error "AccessDenied"⟩]).allErr :=
  ⟨(aggregator_unit_isolation
      [⟨"acctA", "us-east-1", .ok ⟨[unmanagedRecord "acctA" "us-east-1" "i-1"
          ⟨"i-1", "linux", "running", none, false, "Unknown", false⟩], [], [],
          ["⚠️ acctA/us-east-1: SSM instances - x"]⟩⟩,
       ⟨"acctB", "us-west-2", .error "AccessDenied"⟩]).1,
   (aggregator_unit_isolation
      [⟨"acctA", "us-east-1", .ok ⟨[unmanagedRecord "acctA" "us-east-1" "i-1"
          ⟨"i-1", "linux", "running", none, false, "Unknown", false⟩], [], [],
          ["⚠️ acctA/us-east-1: SSM instances - x"]⟩⟩,
       ⟨"acctB", "us-west-2", .error "AccessDenied"⟩]).2.2
     ⟨"acctB", "us-west-2", .error "AccessDenied"⟩
     (List.mem_cons_of_mem _ (List.mem_singleton_self _))
     "AccessDenied" rfl⟩


/-- C7: every patch-group summary emitted for a unit has a positive total
instance count — a zero-count group never appears — and a group whose
aggregate-count fetch fails (`groupStateFor` returns `none`) is skipped
without affecting the records of the other groups on the page. -/
theorem patch_group_filtering (accountName region : String)
    (groupPages : List (List PatchGroupMapping))
    (groupStateFor : String → Option PatchGroupState) :
    (∀ g ∈ fetch_patch_groups accountName region groupPages groupStateFor,
      0 < g.instancesCount)
    ∧ ∀ (pre post : List PatchGroupMapping) (mp : PatchGroupMapping),
        groupStateFor (mp.patchGroup.getD "N/A") = none →
        fetch_patch_groups accountName region [pre ++ mp :: post] groupStateFor =
          fetch_patch_groups accountName region [pre ++ post] groupStateFor := by
  constructor
  · intro g hg
    rw [fetch_patch_groups_eq_flatMap] at hg
    obtain ⟨mp, _, hgmp⟩ := List.mem_flatMap.mp hg
    unfold groupRecordsFor at hgmp
    rcases hf : groupStateFor (mp.patchGroup.getD "N/A") with _ | resp
    · simp [hf] at hgmp
    · simp only [hf] at hgmp
      by_cases h : resp.instances.getD 0 > 0
      · rw [if_pos h] at hgmp
        rw [List.mem_singleton] at hgmp
        rw [hgmp]
        exact h
      · rw [if_neg h] at hgmp
        cases hgmp
  · intro pre post mp hnone
    rw [fetch_patch_groups_eq_flatMap, fetch_patch_groups_eq_flatMap]
    simp only [List.flatten, List.append_nil]
    rw [List.flatMap_append, List.flatMap_cons, List.flatMap_append]
    have : groupRecordsFor accountName region groupStateFor mp = [] := by
      unfold groupRecordsFor
      rw [hnone]
    rw [this]
    simp

/-- Concrete instantiation of the group-filtering theorem: on a page with a
healthy group (3 instances), a zero-count group and a group whose state
fetch fails, the emitted record for the healthy group has positive count,
and dropping the failing mapping leaves the output unchanged. -/
theorem patch_group_filtering_witness :
    0 < ({ accountName := "acctA", region := "us-east-1", patchGroup := "gA",
           baselineId := "bl-1", instancesCount := 3, compliant := 2,
           nonCompliant := 1, unspecified := 0 } : PatchGroupRecord).instancesCount
    ∧ fetch_patch_groups "acctA" "us-east-1"
        [[⟨some "gA", some "bl-1"⟩] ++ (⟨some "gBad", some "bl-3"⟩ : PatchGroupMapping) ::
          [⟨some "gZero", some "bl-2"⟩]]
        (fun n => if n = "gA" then
            some ⟨some 3, some 2, some 1, some 0, some 0, some 0⟩
          else if n = "gZero" then
            some ⟨some 0, some 0, some 0, some 0, some 0, some 0⟩
          else none) =
      fetch_patch_groups "acctA" "us-east-1"
        [[⟨some "gA", some "bl-1"⟩] ++ [⟨some "gZero", some "bl-2"⟩]]
        (fun n => if n = "gA" then
            some ⟨some 3, some 2, some 1, some 0, some 0, some 0⟩
          else if n = "gZero" then
            some ⟨some 0, some 0, some 0, some 0, some 0, some 0⟩
          else none) :=
  ⟨(patch_group_filtering "acctA" "us-east-1"
      [[⟨some "gA", some "bl-1"⟩, ⟨some "gZero", some "bl-2"⟩,
        ⟨some "gBad", some "bl-3"⟩]]
      (fun n => if n = "gA" then
          some ⟨some 3, some 2, some 1, some 0, some 0, some 0⟩
        else if n = "gZero" then
          some ⟨some 0, some 0, some 0, some 0, some 0, some 0⟩
        else none)).1
     { accountName := "acctA", region := "us-east-1", patchGroup := "gA",
       baselineId := "bl-1", instancesCount := 3, compliant := 2,
       nonCompliant := 1, unspecified := 0 } (by decide),
   (patch_group_filtering "acctA" "us-east-1"
      [[⟨some "gA", some "bl-1"⟩, ⟨some "gZero", some "bl-2"⟩,
        ⟨some "gBad", some "bl-3"⟩]]
      (fun n => if n = "gA" then
          some ⟨some 3, some 2, some 1, some 0, some 0, some 0⟩
        else if n = "gZero" then
          some ⟨some 0, some 0, some 0, some 0, some 0, some 0⟩
        else none)).2
     [⟨some "gA", some "bl-1"⟩] [⟨some "gZero", some "bl-2"⟩]
     ⟨some "gBad", some "bl-3"⟩ (by decide)⟩

/-- C8: the presentation layer's distinct-by-patch-id reduction
(`drop_duplicates(subset=['Patch ID'])`) yields a collection no larger than
the raw one, with exactly one record per patch identifier occurring in the
raw collection (count 1 if the id occurs at all, 0 otherwise) — duplicates
collapse to a single record. -/
theorem catalog_dedup_by_patch_id (raw : List CatalogPatchRecord) :
    (unique_patches raw).length ≤ raw.length
    ∧ ∀ pid : String,
        (unique_patches raw).countP (fun p => p.patchId == pid) =
          min 1 (raw.countP (fun p => p.patchId == pid)) :=
  ⟨unique_patches_length_le raw, fun pid => unique_patches_countP raw pid⟩


/-- C9 (counterexample): the dashboard's Resource Inventory Collector
applies no lifecycle-state filter, so a `terminated` instance appears in its
inventory map, contradicting "exactly the set of instances in
{running, stopped}". -/
theorem inventory_collector_counterexample :
    "i-term" ∈ dictKeys
      (buildInstanceMap [[[⟨"i-term", [], none, "terminated", none⟩]]])
    ∧ runningOrStopped ⟨"i-term", [], none, "terminated", none⟩ = false := by
  constructor
  · rw [show dictKeys
      (buildInstanceMap [[[⟨"i-term", [], none, "terminated", none⟩]]]) =
      ["i-term"] from rfl]
    exact List.mem_singleton_self _
  · rfl

/-- C9 (amended): the Lambda reporter's collector (`get_ec2_instances`),
whose paged listing carries the `running`/`stopped` server-side filter,
returns exactly the identifiers of the running/stopped instances and walks
every page so no such instance is missed; the dashboard collector pages to
completion too, but without any state filter: every discovered instance of
any lifecycle state enters its inventory map. -/
theorem inventory_collector_amended (allInstances : List Ec2Instance)
    (pages ec2Pages : List (List (List Ec2Instance)))
    (hpages : pages.flatten.flatten = allInstances.filter runningOrStopped) :
    get_ec2_instances pages =
      (allInstances.filter runningOrStopped).map (fun i => i.instanceId)
    ∧ (∀ inst ∈ allInstances, runningOrStopped inst = true →
        inst.instanceId ∈ get_ec2_instances pages)
    ∧ (∀ inst ∈ ec2Pages.flatten.flatten,
        inst.instanceId ∈ dictKeys (buildInstanceMap ec2Pages)) := by
  have h1 : get_ec2_instances pages =
      (allInstances.filter runningOrStopped).map (fun i => i.instanceId) := by
    rw [get_ec2_instances_eq, hpages]
  refine ⟨h1, ?_, ?_⟩
  · intro inst hin hrs
    rw [h1]
    exact List.mem_map.mpr ⟨inst, List.mem_filter.mpr ⟨hin, hrs⟩, rfl⟩
  · intro inst hin
    exact mem_buildInstanceMap_keys ec2Pages inst hin

/-- Concrete instantiation of the amended inventory theorem: of a running
and a terminated instance, the filtered pages contain only the running one,
the Lambda collector returns exactly its id, the running instance is not
missed, and the unfiltered dashboard map contains the discovered instance. -/
theorem inventory_collector_amended_witness :
    get_ec2_instances [[[⟨"i-run", [], none, "running", none⟩]]] =
      ([⟨"i-run", [], none, "running", none⟩,
        ⟨"i-term", [], none, "terminated", none⟩].filter runningOrStopped).map
        (fun i => i.instanceId)
    ∧ ("i-run" : String) ∈ get_ec2_instances [[[⟨"i-run", [], none, "running", none⟩]]]
    ∧ ("i-run" : String) ∈ dictKeys
        (buildInstanceMap [[[⟨"i-run", [], none, "running", none⟩]]]) :=
  ⟨(inventory_collector_amended
      [⟨"i-run", [], none, "running", none⟩, ⟨"i-term", [], none, "terminated", none⟩]
      [[[⟨"i-run", [], none, "running", none⟩]]]
      [[[⟨"i-run", [], none, "running", none⟩]]]
      (by decide)).1,
   (inventory_collector_amended
      [⟨"i-run", [], none, "running", none⟩, ⟨"i-term", [], none, "terminated", none⟩]
      [[[⟨"i-run", [], none, "running", none⟩]]]
      [[[⟨"i-run", [], none, "running", none⟩]]]
      (by decide)).2.1 ⟨"i-run", [], none, "running", none⟩ (by decide) (by decide),
   (inventory_collector_amended
      [⟨"i-run", [], none, "running", none⟩, ⟨"i-term", [], none, "terminated", none⟩]
      [[[⟨"i-run", [], none, "running", none⟩]]]
      [[[⟨"i-run", [], none, "running", none⟩]]]
      (by decide)).2.2 ⟨"i-run", [], none, "running", none⟩ (by decide)⟩

/-- C10: every per-category count read from a patch-state record is clamped
with `max(0, ·)` before summing, and the not-managed count is
`max(0, total − managed)`, so all aggregated counts in the Lambda reporters
are non-negative for every input — even when the API returns negative counts
or the registry reports more online instances than exist in inventory. -/
theorem lambda_aggregated_counts_nonneg (managedInstances : List String)
    (fetchBatch : List String → Option (List InstancePatchState))
    (totalEc2Instances managedCount : Int) :
    lambdaSummaryCountsNonneg (get_patch_compliance_data managedInstances fetchBatch)
    ∧ noncomplianceCountsNonneg
        (get_detailed_noncompliance_counts managedInstances fetchBatch)
    ∧ 0 ≤ not_managed_count totalEc2Instances managedCount :=
  ⟨get_patch_compliance_data_nonneg managedInstances fetchBatch,
   get_detailed_noncompliance_counts_nonneg managedInstances fetchBatch,
   le_max_left 0 _⟩
